import Mathlib

/-!
Shallow embedding of the chili3d converter module (src/cpp/src/converter.cpp):
the scene-graph extraction over XCAF-style label documents and the bespoke
DXF-style line-record interchange codec (parser, geometry reconstructor,
writer), together with proofs about the spec's claims on them.

Numeric values flow through the source as C++ `double`s printed with iostream
defaults and parsed with `std::stod` / `std::stoi`.  The embedding models the
numeric domain with exact rationals (ℚ) and finite decimal literals, so that
serialisation and re-parsing are exact; the spec's "within floating tolerance"
allowance absorbs the rounding the real formatting performs.
-/

/-- C++ `std::string` values are modelled as lists of characters. -/
abbrev Str := List Char

namespace Conv

/-! ### Character-level utilities mirrored from the source -/

/-- The whitespace set of the source's trimming calls
(`find_first_not_of(" \t\r\n")`). -/
def isTrimChar (c : Char) : Bool :=
  c = ' ' || c = '\t' || c = '\r' || c = '\n'

/-- `line.erase(0, line.find_first_not_of(" \t\r\n"));
line.erase(line.find_last_not_of(" \t\r\n") + 1)` — trim both ends. -/
def trim (s : Str) : Str :=
  ((s.dropWhile isTrimChar).reverse.dropWhile isTrimChar).reverse

/-- C `isdigit`: the code points of '0'..'9'. -/
def isDigitChar (c : Char) : Bool :=
  48 ≤ c.toNat && c.toNat ≤ 57

/-- C `isspace` (the set used by `std::stoi`/`std::stod` to skip leading
whitespace). -/
def isSpaceChar (c : Char) : Bool :=
  c = ' ' || c = '\t' || c = '\n' || c = '\x0B' || c = '\x0C' || c = '\r'

/-- The group-code detection test of `parseDxfEntities`:
`std::isdigit(line[0]) || (line[0] == '-' && line.length() > 1 && std::isdigit(line[1]))`. -/
def looksLikeGroupCode : Str → Bool
  | [] => false
  | [c] => isDigitChar c
  | c :: c2 :: _ => isDigitChar c || (c = '-' && isDigitChar c2)

/-- Numeric value of a decimal digit character. -/
def digitVal (c : Char) : ℕ :=
  c.toNat - '0'.toNat

/-- Value of a string of decimal digits, most significant first. -/
def digitsVal (ds : Str) : ℕ :=
  ds.foldl (fun acc c => acc * 10 + digitVal c) 0

/-- The leading-sign split shared by `std::stoi` and `std::stod`: an
optional single `-` or `+`. -/
def splitSign : Str → Bool × Str
  | [] => (false, [])
  | c :: rest =>
    if c = '-' then (true, rest)
    else if c = '+' then (false, rest)
    else (false, c :: rest)

/-- `std::stoi`: skip whitespace, optional sign, then a non-empty run of
digits; `std::invalid_argument` when no digits, `std::out_of_range` outside
`int`'s range.  Both exception kinds are modelled as `.error ()`. -/
def stoiParse (s : Str) : Except Unit ℤ :=
  let sr := splitSign (s.dropWhile isSpaceChar)
  let ds := sr.2.takeWhile isDigitChar
  if ds = [] then .error ()
  else
    let v : ℤ := (if sr.1 then -1 else 1) * (digitsVal ds : ℤ)
    if v < -2147483648 || 2147483647 < v then .error () else .ok v

/-- Exponent part of `std::stod`: optional sign then digits; an exponent with
no digits is not consumed (contributing factor 1). -/
def stodExpVal (s : Str) : ℤ :=
  let sr := splitSign s
  let ds := sr.2.takeWhile isDigitChar
  if ds = [] then 0
  else (if sr.1 then -1 else 1) * (digitsVal ds : ℤ)

/-- The optional fraction part of `std::stod`: a `.` followed by a digit
run; anything else leaves the remainder untouched. -/
def fracSplit : Str → Str × Str
  | [] => ([], [])
  | c :: rest =>
    if c = '.' then (rest.takeWhile isDigitChar, rest.drop (rest.takeWhile isDigitChar).length)
    else ([], c :: rest)

/-- The optional exponent factor of `std::stod`. -/
def expFactor : Str → ℤ
  | [] => 0
  | c :: rest => if c = 'e' || c = 'E' then stodExpVal rest else 0

/-- `std::stod` on decimal input: whitespace, sign, integer digits, optional
fraction, optional exponent; `std::invalid_argument` when neither integer nor
fraction digits are present.  (The hex/inf/nan forms of `strtod` never arise
from this program's data and are not modelled.) -/
def stodParse (s : Str) : Except Unit ℚ :=
  let sr := splitSign (s.dropWhile isSpaceChar)
  let ip := sr.2.takeWhile isDigitChar
  let fr := fracSplit (sr.2.drop ip.length)
  if ip = [] && fr.1 = [] then .error ()
  else
    let mant : ℚ := (digitsVal (ip ++ fr.1) : ℚ) / (10 : ℚ) ^ fr.1.length
    .ok ((if sr.1 then -1 else 1) * mant * (10 : ℚ) ^ expFactor fr.2)

/-! ### Decimal printing (iostream `operator<<` on numeric values) -/

/-- A decimal digit character, by value. -/
def digitChar (n : ℕ) : Char :=
  if n = 0 then '0' else if n = 1 then '1' else if n = 2 then '2'
  else if n = 3 then '3' else if n = 4 then '4' else if n = 5 then '5'
  else if n = 6 then '6' else if n = 7 then '7' else if n = 8 then '8' else '9'

/-- Decimal digit string of a natural number, most significant digit first;
structural recursion on a fuel bound so that the definition evaluates by
reduction. -/
def natDigitsAux : ℕ → ℕ → Str
  | 0, _ => []
  | _fuel + 1, n =>
    if n < 10 then [digitChar n]
    else natDigitsAux _fuel (n / 10) ++ [digitChar (n % 10)]

/-- Decimal digit string of a natural number, most significant digit first.
`n + 1` units of fuel always suffice since `n < 10 ^ (n + 1)`. -/
def natDigits (n : ℕ) : Str :=
  natDigitsAux (n + 1) n

/-- Decimal digit string of an integer. -/
def intDigits (i : ℤ) : Str :=
  if i < 0 then '-' :: natDigits i.natAbs else natDigits i.natAbs

/-- A finite decimal literal `m / 10 ^ e`: the exact value domain of the
numbers the writer prints. -/
structure Dec where
  m : ℤ
  e : ℕ
deriving DecidableEq

/-- Rational value of a decimal literal. -/
def Dec.toRat (d : Dec) : ℚ :=
  (d.m : ℚ) / (10 : ℚ) ^ d.e

/-- Exact decimal rendering of a `Dec`, as the writer's stream insertion
prints it (sign, integer part, fraction part). -/
def decStr (d : Dec) : Str :=
  if d.e = 0 then intDigits d.m
  else
    let n := d.m.natAbs
    let ip := n / 10 ^ d.e
    let fp := n % 10 ^ d.e
    let fds := natDigits fp
    (if d.m < 0 then ['-'] else []) ++ natDigits ip ++
      '.' :: (List.replicate (d.e - fds.length) '0' ++ fds)

/-! ### getline-style line splitting -/

/-- Split on `'\n'`, accumulator-style. -/
def splitNlAux : Str → Str → List Str
  | [], acc => [acc.reverse]
  | c :: rest, acc =>
    if c = '\n' then acc.reverse :: splitNlAux rest []
    else splitNlAux rest (c :: acc)

/-- The sequence of lines `std::getline` yields from a buffer: split on
newlines; a final empty segment (buffer empty or ending in a newline) is not
a line. -/
def getLines (cs : Str) : List Str :=
  if (splitNlAux cs []).getLast? = some [] then (splitNlAux cs []).dropLast
  else splitNlAux cs []

/-- Join lines, terminating each with `'\n'` (how the writer's stream builds
its output). -/
def joinNl (ls : List Str) : Str :=
  ls.foldr (fun l acc => l ++ '\n' :: acc) []

/-! ### DxfEntity and the interchange parser (`Converter::parseDxfEntities`) -/

/-- `Converter::DxfEntity`: entity keyword, group-code map, layer, color.
The constructor `DxfEntity(entityType)` leaves layer and color empty. -/
structure DxfEntity where
  type : Str
  groupCodes : List (ℤ × Str)
  layer : Str
  color : Str
deriving DecidableEq

/-- `DxfEntity(entityType)`. -/
def emptyEntity (t : Str) : DxfEntity :=
  ⟨t, [], [], []⟩

/-- `std::map<int, std::string>::operator[] = v`: insert keeping ascending
key order, replacing any previous value for the key (last write wins). -/
def gcInsert (m : List (ℤ × Str)) (k : ℤ) (v : Str) : List (ℤ × Str) :=
  match m with
  | [] => [(k, v)]
  | (k1, v1) :: rest =>
    if k < k1 then (k, v) :: (k1, v1) :: rest
    else if k = k1 then (k, v) :: rest
    else (k1, v1) :: gcInsert rest k v

/-- `std::map::find`. -/
def gcFind (m : List (ℤ × Str)) (k : ℤ) : Option Str :=
  match m with
  | [] => none
  | (k1, v1) :: rest => if k = k1 then some v1 else gcFind rest k

/-- Mutable state of the parsing loop: the entities already closed, the
currently open entity, and the currently active layer. -/
structure PState where
  entities : List DxfEntity
  cur : Option DxfEntity
  layer : Str

/-- Closing the currently open entity (if any): it is appended, tagged with
the active layer. -/
def closeCur (st : PState) : List DxfEntity :=
  match st.cur with
  | none => st.entities
  | some e => st.entities ++ [{ e with layer := st.layer }]

/-- Processing one group-code/value pair: code 0 closes the open entity and
opens a new one of the given type; any other code is stored in the open
entity's map (none is stored when no entity is open), code 8 also updates the
active layer and code 62 also sets the entity's color. -/
def procPair (code : ℤ) (v : Str) (st : PState) : PState :=
  if code = 0 then
    { entities := closeCur st, cur := some (emptyEntity v), layer := st.layer }
  else
    match st.cur with
    | none => st
    | some e =>
      let e1 : DxfEntity := { e with groupCodes := gcInsert e.groupCodes code v }
      let st1 : PState := { st with cur := some e1 }
      let st2 : PState := if code = 8 then { st1 with layer := v } else st1
      if code = 62 then { st2 with cur := some { e1 with color := v } } else st2

/-- The `while (std::getline(...))` loop of `parseDxfEntities`: skip blank
lines, read a group-code line and its value line, process the pair; a
group-code line with no following line is dropped; `std::stoi` failure on a
group-code line propagates.  At end of stream the open entity is closed. -/
def parseLoop : List Str → PState → Except Unit (List DxfEntity)
  | [], st => .ok (closeCur st)
  | l :: rest, st =>
    let t := trim l
    if t = [] then parseLoop rest st
    else if looksLikeGroupCode t then
      match stoiParse t with
      | .error e => .error e
      | .ok code =>
        match rest with
        | [] => .ok (closeCur st)
        | v :: rest2 => parseLoop rest2 (procPair code (trim v) st)
    else parseLoop rest st

/-- `Converter::parseDxfEntities`: run the loop from an empty entity list, no
open entity, and layer "0". -/
def parseDxfEntities (content : Str) : Except Unit (List DxfEntity) :=
  parseLoop (getLines content) ⟨[], none, ['0']⟩

/-! ### Geometry reconstruction (`createXFromDxf` builders) -/

/-- A reconstructed point (`gp_Pnt`), with exact rational coordinates. -/
structure QPnt where
  x : ℚ
  y : ℚ
  z : ℚ
deriving DecidableEq

/-- The kernel shapes the DXF reconstructors build.  A full circle's edge has
parameter range 0..2π and an arc's angles are converted to radians in the
source; angles are carried here in degrees, as read, to stay within exact
arithmetic. -/
inductive RShape where
  | lineEdge (p1 p2 : QPnt)
  | circleEdge (center : QPnt) (radius : ℚ)
  | arcEdge (center : QPnt) (radius : ℚ) (startDeg endDeg : ℚ)
  | wireShape (segs : List (QPnt × QPnt))
  | faceShape (pts : List QPnt) (closed : Bool)
deriving DecidableEq

/-- `Converter::createLineFromDxf`: requires codes 10, 20, 11, 21; z = 0;
`std::stod` failures propagate. -/
def createLineFromDxf (e : DxfEntity) : Except Unit (Option RShape) :=
  match gcFind e.groupCodes 10, gcFind e.groupCodes 20,
        gcFind e.groupCodes 11, gcFind e.groupCodes 21 with
  | some sx1, some sy1, some sx2, some sy2 => do
      let x1 ← stodParse sx1
      let y1 ← stodParse sy1
      let x2 ← stodParse sx2
      let y2 ← stodParse sy2
      .ok (some (.lineEdge ⟨x1, y1, 0⟩ ⟨x2, y2, 0⟩))
  | _, _, _, _ => .ok none

/-- `Converter::createCircleFromDxf`: requires codes 10, 20, 40. -/
def createCircleFromDxf (e : DxfEntity) : Except Unit (Option RShape) :=
  match gcFind e.groupCodes 10, gcFind e.groupCodes 20, gcFind e.groupCodes 40 with
  | some sx, some sy, some sr => do
      let cx ← stodParse sx
      let cy ← stodParse sy
      let r ← stodParse sr
      .ok (some (.circleEdge ⟨cx, cy, 0⟩ r))
  | _, _, _ => .ok none

/-- `Converter::createArcFromDxf`: requires codes 10, 20, 40, 50, 51. -/
def createArcFromDxf (e : DxfEntity) : Except Unit (Option RShape) :=
  match gcFind e.groupCodes 10, gcFind e.groupCodes 20, gcFind e.groupCodes 40,
        gcFind e.groupCodes 50, gcFind e.groupCodes 51 with
  | some sx, some sy, some sr, some sa, some sb => do
      let cx ← stodParse sx
      let cy ← stodParse sy
      let r ← stodParse sr
      let a ← stodParse sa
      let b ← stodParse sb
      .ok (some (.arcEdge ⟨cx, cy, 0⟩ r a b))
  | _, _, _, _, _ => .ok none

/-- The vertex-collection loop of `createPolylineFromDxf`: walk the (key
ordered) group-code map once, `std::stoi`-ing the values of codes 10, 20 and
30 into three vectors. -/
def collectXYZ : List (ℤ × Str) → Except Unit (List ℤ × List ℤ × List ℤ)
  | [] => .ok ([], [], [])
  | (k, v) :: rest =>
    if k = 10 then do
      let n ← stoiParse v
      let r ← collectXYZ rest
      .ok (n :: r.1, r.2.1, r.2.2)
    else if k = 20 then do
      let n ← stoiParse v
      let r ← collectXYZ rest
      .ok (r.1, n :: r.2.1, r.2.2)
    else if k = 30 then do
      let n ← stoiParse v
      let r ← collectXYZ rest
      .ok (r.1, r.2.1, n :: r.2.2)
    else collectXYZ rest

/-- `Converter::createPolylineFromDxf`: 3D only for POLYLINE with bit 3 of
code 70; points paired positionally (zip); needs ≥ 2 points for a wire; for
LWPOLYLINE with > 2 points and bit 0 of code 70, a closing edge is added. -/
def createPolylineFromDxf (e : DxfEntity) : Except Unit (Option RShape) := do
  let is3D : Bool ←
    if e.type = "POLYLINE".data then
      match gcFind e.groupCodes 70 with
      | some v => (stoiParse v).map (fun f => Int.land f 8 != 0)
      | none => pure false
    else pure false
  let r ← collectXYZ e.groupCodes
  let xs := r.1
  let ys := r.2.1
  let zs := r.2.2
  let points : List QPnt :=
    if is3D = true then
      (xs.zip (ys.zip zs)).map (fun p => ⟨(p.1 : ℚ), (p.2.1 : ℚ), (p.2.2 : ℚ)⟩)
    else
      (xs.zip ys).map (fun p => ⟨(p.1 : ℚ), (p.2 : ℚ), 0⟩)
  if 2 ≤ points.length then
    let segs := points.zip points.tail
    if e.type = "LWPOLYLINE".data ∧ 2 < points.length then
      match gcFind e.groupCodes 70 with
      | some v => do
          let f ← stoiParse v
          if Int.land f 1 ≠ 0 then
            .ok (some (.wireShape (segs ++ [(points.getLastD ⟨0,0,0⟩, points.headD ⟨0,0,0⟩)])))
          else .ok (some (.wireShape segs))
      | none => .ok (some (.wireShape segs))
    else .ok (some (.wireShape segs))
  else .ok none

/-- One corner of `create3DFaceFromDxf`: requires all three of codes
`10+i`, `20+i`, `30+i`. -/
def faceCorner (e : DxfEntity) (i : ℤ) : Except Unit (Option QPnt) :=
  match gcFind e.groupCodes (10 + i), gcFind e.groupCodes (20 + i),
        gcFind e.groupCodes (30 + i) with
  | some sx, some sy, some sz => do
      let x ← stodParse sx
      let y ← stodParse sy
      let z ← stodParse sz
      .ok (some ⟨x, y, z⟩)
  | _, _, _ => .ok none

/-- `Converter::create3DFaceFromDxf`: up to 4 corners; 3 build a triangle
from the open polygon, 4 close the polygon first; fewer than 3 corners yield
no geometry. -/
def create3DFaceFromDxf (e : DxfEntity) : Except Unit (Option RShape) := do
  let c0 ← faceCorner e 0
  let c1 ← faceCorner e 1
  let c2 ← faceCorner e 2
  let c3 ← faceCorner e 3
  let pts := [c0, c1, c2, c3].filterMap id
  if pts.length = 3 then .ok (some (.faceShape pts false))
  else if pts.length = 4 then .ok (some (.faceShape pts true))
  else .ok none

/-- The per-entity dispatch of `convertFromDxf`'s loop body. -/
def entityToShape (e : DxfEntity) : Except Unit (Option RShape) :=
  if e.type = "LINE".data then createLineFromDxf e
  else if e.type = "CIRCLE".data then createCircleFromDxf e
  else if e.type = "ARC".data then createArcFromDxf e
  else if e.type = "POLYLINE".data || e.type = "LWPOLYLINE".data then createPolylineFromDxf e
  else if e.type = "3DFACE".data then create3DFaceFromDxf e
  else .ok none

/-- The compound-building loop of `convertFromDxf`: non-null shapes are
accumulated in entity order; any exception aborts the loop. -/
def buildShapes : List DxfEntity → Except Unit (List RShape)
  | [] => .ok []
  | e :: rest => do
      let s ← entityToShape e
      let ss ← buildShapes rest
      .ok (match s with | some sh => sh :: ss | none => ss)

/-- The node `convertFromDxf` returns: the compound's shapes and the name
reporting the entity count. -/
structure DxfNode where
  shapes : List RShape
  name : Str
deriving DecidableEq

/-- `Converter::convertFromDxf`, with the staging-file open outcome as an
explicit input: open failure yields `none`; otherwise parse, reconstruct each
entity (exceptions propagating), and wrap the compound in a node named
"DXF Import (N entities)". -/
def convertFromDxf (content : Str) (openOk : Bool) : Except Unit (Option DxfNode) :=
  if openOk then do
    let es ← parseDxfEntities content
    let ss ← buildShapes es
    .ok (some ⟨ss, "DXF Import (".data ++ natDigits es.length ++ " entities)".data⟩)
  else .ok none

/-! ### Writer-side geometry (`Converter::convertToDxf`) -/

/-- A point with finite-decimal coordinates: what the writer's stream
insertion prints. -/
structure WPnt where
  x : Dec
  y : Dec
  z : Dec
deriving DecidableEq

/-- The curve classification the writer performs via `DynamicType()`:
straight line, full circle, trimmed curve (whose basis may or may not be a
circle), or anything else.  A line edge's `Value(first)`/`Value(last)` are
the edge's end points, carried on the edge itself; a trimmed circle's
parameters are carried in degrees, the unit the writer prints, to stay
within exact arithmetic. -/
inductive RCurve where
  | lineC
  | circleC (center : WPnt) (radius : Dec)
  | trimmedC (basisCircle : Option (WPnt × Dec)) (startDeg endDeg : Dec)
  | otherC
deriving DecidableEq

/-- A kernel edge as the writer sees it: `BRep_Tool::Curve` result (possibly
null) and the curve's points at the first and last parameter. -/
structure REdge where
  curve : Option RCurve
  pFirst : WPnt
  pLast : WPnt
deriving DecidableEq

/-- Kernel shapes: edges, wires, faces (carrying their edges in traversal
order), other leaf kinds, and the two aggregate kinds
(`TopAbs_COMPOUND`, `TopAbs_COMPSOLID`) recursed into by `parseShape`. -/
inductive TopoShape where
  | edgeS (e : REdge)
  | wireS (edges : List REdge)
  | faceS (edges : List REdge)
  | otherS (edges : List REdge)
  | compoundS (subs : List TopoShape)
  | compsolidS (subs : List TopoShape)

mutual

/-- `TopExp_Explorer(shape, TopAbs_EDGE)`: all edges of a shape, recursively
for aggregates. -/
def shapeEdges : TopoShape → List REdge
  | .edgeS e => [e]
  | .wireS es => es
  | .faceS es => es
  | .otherS es => es
  | .compoundS subs => shapeEdgesList subs
  | .compsolidS subs => shapeEdgesList subs

/-- Edges of a list of shapes, in order. -/
def shapeEdgesList : List TopoShape → List REdge
  | [] => []
  | s :: rest => shapeEdges s ++ shapeEdgesList rest

end

/-- The per-edge emission of `convertToDxf`'s explorer loop: LINE for a
straight line (both end points), CIRCLE for a full circle (center, radius),
ARC for a trimmed curve with circular basis (center, radius, angles in
degrees); null curves and other curve types emit nothing. -/
def edgeRec (e : REdge) : List Str :=
  match e.curve with
  | none => []
  | some .lineC =>
      ["  0".data, "LINE".data, "  8".data, "0".data,
       " 10".data, decStr e.pFirst.x, " 20".data, decStr e.pFirst.y,
       " 30".data, decStr e.pFirst.z,
       " 11".data, decStr e.pLast.x, " 21".data, decStr e.pLast.y,
       " 31".data, decStr e.pLast.z]
  | some (.circleC c r) =>
      ["  0".data, "CIRCLE".data, "  8".data, "0".data,
       " 10".data, decStr c.x, " 20".data, decStr c.y, " 30".data, decStr c.z,
       " 40".data, decStr r]
  | some (.trimmedC basis a b) =>
      match basis with
      | some (c, r) =>
          ["  0".data, "ARC".data, "  8".data, "0".data,
           " 10".data, decStr c.x, " 20".data, decStr c.y, " 30".data, decStr c.z,
           " 40".data, decStr r, " 50".data, decStr a, " 51".data, decStr b]
      | none => []
  | some .otherC => []

/-- The wire walk of the writer: the point `curve->Value(first)` of every
edge with a non-null curve, in wire order. -/
def wirePoints (edges : List REdge) : List WPnt :=
  edges.filterMap (fun e => if e.curve.isSome then some e.pFirst else none)

/-- The LWPOLYLINE emission for shapes that are themselves wires: vertex
count under code 90, flag value 1 under code 70, then the collected points;
nothing when no points were collected. -/
def wireRec : TopoShape → List Str
  | .wireS edges =>
    let pts := wirePoints edges
    if pts = [] then []
    else
      ["  0".data, "LWPOLYLINE".data, "  8".data, "0".data,
       "  90".data, natDigits pts.length, "  70".data, "1".data] ++
      pts.foldr (fun p acc =>
        [" 10".data, decStr p.x, " 20".data, decStr p.y, " 30".data, decStr p.z] ++ acc) []
  | _ => []

/-- The 3DFACE emission for shapes that are themselves faces: at least 3
collected vertices required, the first 4 written (each under codes
10/20/30, as the source does). -/
def faceRec : TopoShape → List Str
  | .faceS edges =>
    let vs := wirePoints edges
    if 3 ≤ vs.length then
      ["  0".data, "3DFACE".data, "  8".data, "0".data] ++
      (vs.take 4).foldr (fun p acc =>
        [" 10".data, decStr p.x, " 20".data, decStr p.y, " 30".data, decStr p.z] ++ acc) []
    else []
  | _ => []

/-- The fixed header and tables boilerplate of `convertToDxf`, then the
start of the ENTITIES section, as lines. -/
def headerLines : List Str :=
  ["  0".data, "SECTION".data, "  2".data, "HEADER".data, "  9".data, "$ACADVER".data,
   "  1".data, "AC1015".data, "  9".data, "$INSUNITS".data, "  70".data, "4".data,
   "  0".data, "ENDSEC".data,
   "  0".data, "SECTION".data, "  2".data, "TABLES".data, "  0".data, "TABLE".data,
   "  2".data, "LAYER".data, "  0".data, "LAYER".data, "  2".data, "0".data,
   "  70".data, "0".data, "  62".data, "7".data, "  6".data, "CONTINUOUS".data,
   "  0".data, "ENDTAB".data, "  0".data, "ENDSEC".data,
   "  0".data, "SECTION".data, "  2".data, "ENTITIES".data]

/-- The closing lines of `convertToDxf`. -/
def footerLines : List Str :=
  ["  0".data, "ENDSEC".data, "  0".data, "EOF".data]

/-- All lines one shape contributes: the edge pass, then the wire pass, then
the face pass. -/
def shapeLines (s : TopoShape) : List Str :=
  ((shapeEdges s).foldr (fun e acc => edgeRec e ++ acc) []) ++ wireRec s ++ faceRec s

/-- `Converter::convertToDxf` as a line sequence. -/
def convertToDxfLines (shapes : List TopoShape) : List Str :=
  headerLines ++ shapes.foldr (fun s acc => shapeLines s ++ acc) [] ++ footerLines

/-- `Converter::convertToDxf`: the emitted text buffer (every line newline
terminated, as the stream writes it). -/
def convertToDxf (shapes : List TopoShape) : Str :=
  joinNl (convertToDxfLines shapes)

/-! ### Labels and scene-graph extraction -/

/-- The attributes and shape-tool facts of one document label: its optional
name attribute, the three color channels (surface, curve, generic, already
hex encoded as `ColorToHex` would), `IsSubShape`, whether `GetShape`
succeeds, `IsFree`, and the shape `GetShape` yields. -/
structure LabelAttrs where
  nameAttr : Option Str
  colorSurf : Option Str
  colorCurv : Option Str
  colorGen : Option Str
  subShapeFlag : Bool
  hasShape : Bool
  freeFlag : Bool
  shape : TopoShape

/-- A document label: attributes, the referred-to label when the label is a
reference (`IsReference` / `GetReferredShape`), and its child labels in
document order.  Reference chains are finite by construction, matching the
acyclicity the source assumes. -/
inductive Label where
  | node (a : LabelAttrs) (ref : Option Label) (children : List Label)

/-- Attribute record of a label. -/
def Label.attrs : Label → LabelAttrs
  | .node a _ _ => a

/-- Referred-to label, when a reference. -/
def Label.ref : Label → Option Label
  | .node _ r _ => r

/-- Child labels. -/
def Label.children : Label → List Label
  | .node _ _ c => c

/-- `getLabelNameNoRef`: the label's own name attribute, or the empty string
when absent. -/
def getLabelNameNoRef (l : Label) : Str :=
  (l.attrs.nameAttr).getD []

/-- `getLabelName`: when the label is a reference, recurse onto the referred
label; otherwise the label's own name. -/
def getLabelName : Label → Str
  | .node _ (some r) _ => getLabelName r
  | .node a none _ => a.nameAttr.getD []

/-- `getLabelColorNoRef`: try surface, then curve, then generic color,
returning the first found. -/
def getLabelColorNoRef (l : Label) : Option Str :=
  match l.attrs.colorSurf with
  | some c => some c
  | none =>
    match l.attrs.colorCurv with
    | some c => some c
    | none => l.attrs.colorGen

/-- `getLabelColor`: the label's own color first; when absent and the label
is a reference, recurse onto the referred label. -/
def getLabelColor : Label → Option Str
  | .node a none cs => getLabelColorNoRef (.node a none cs)
  | .node a (some rl) cs =>
    match getLabelColorNoRef (.node a (some rl) cs) with
    | some c => some c
    | none => getLabelColor rl

/-- `isFreeShape`: the label owns a shape and `IsFree` holds. -/
def isFreeShape (l : Label) : Bool :=
  l.attrs.hasShape && l.attrs.freeFlag

/-- `isMeshNode`: no children, or some child is a sub-shape, or no child is
a free shape. -/
def isMeshNode (l : Label) : Bool :=
  if l.children.isEmpty then true
  else if l.children.any (fun c => c.attrs.subShapeFlag) then true
  else if !(l.children.any (fun c => isFreeShape c)) then true
  else false

/-- The extracted scene-tree node (`ShapeNode`): optional shape handle,
optional color, children, name. -/
inductive SNode where
  | node (shape : Option TopoShape) (color : Option Str) (children : List SNode) (name : Str)

/-- Shape handle of a node. -/
def SNode.shape : SNode → Option TopoShape
  | .node s _ _ _ => s

/-- Color of a node. -/
def SNode.color : SNode → Option Str
  | .node _ c _ _ => c

/-- Children of a node. -/
def SNode.children : SNode → List SNode
  | .node _ _ cs _ => cs

/-- Name of a node. -/
def SNode.name : SNode → Str
  | .node _ _ _ n => n

/-- Replace the (empty) child list of a freshly initialised node, modelling
the source's `push_back` loops. -/
def withChildren (n : SNode) (cs : List SNode) : SNode :=
  .node n.shape n.color cs n.name

/-- `getShapeName`: `shapeTool->Search` for the shape's label, empty string
when not found.  The document's shape registry is passed as `search`. -/
def getShapeName (search : TopoShape → Option Label) (s : TopoShape) : Str :=
  match search s with
  | none => []
  | some l => getLabelName l

/-- `getShapeColor`: `Search`, then `getLabelColor`; absent when the search
fails. -/
def getShapeColor (search : TopoShape → Option Label) (s : TopoShape) : Option Str :=
  match search s with
  | none => none
  | some l => getLabelColor l

/-- `initLabelNode`: no shape, the resolved color string wrapped as present
even when resolution found nothing (the out-parameter is wrapped
unconditionally), no children, resolved name. -/
def initLabelNode (l : Label) : SNode :=
  .node none (some ((getLabelColor l).getD [])) [] (getLabelName l)

/-- `initShapeNode`: the shape, the resolved color string wrapped as present
even when resolution found nothing, no children, resolved name. -/
def initShapeNode (search : TopoShape → Option Label) (s : TopoShape) : SNode :=
  .node (some s) (some ((getShapeColor search s).getD [])) [] (getShapeName search s)

/-- `initGroupNode`: no shape, no color, no children, resolved name. -/
def initGroupNode (search : TopoShape → Option Label) (s : TopoShape) : SNode :=
  .node none none [] (getShapeName search s)

mutual

/-- `parseShape`: aggregates become group nodes with one child per immediate
component, in iteration order; anything else becomes a leaf shape node. -/
def parseShape (search : TopoShape → Option Label) : TopoShape → SNode
  | .compoundS subs =>
      withChildren (initGroupNode search (.compoundS subs)) (parseShapeList search subs)
  | .compsolidS subs =>
      withChildren (initGroupNode search (.compsolidS subs)) (parseShapeList search subs)
  | .edgeS e => initShapeNode search (.edgeS e)
  | .wireS es => initShapeNode search (.wireS es)
  | .faceS es => initShapeNode search (.faceS es)
  | .otherS es => initShapeNode search (.otherS es)

/-- The component iteration of `parseShape` over an aggregate: one child
node per component, in order. -/
def parseShapeList (search : TopoShape → Option Label) : List TopoShape → List SNode
  | [] => []
  | s :: rest => parseShape search s :: parseShapeList search rest

end

mutual

/-- `parseLabelToNode`: mesh labels descend into their shape via
`parseShape`; other labels become a label node whose children are the
recursively parsed free-shape children, in document order. -/
def parseLabelToNode (search : TopoShape → Option Label) : Label → SNode
  | .node a r cs =>
    if isMeshNode (.node a r cs) then parseShape search a.shape
    else withChildren (initLabelNode (.node a r cs)) (parseFreeChildren search cs)

/-- The child loop shared by `parseLabelToNode` and `parseRootLabelToNode`:
recurse into exactly the free-shape children, preserving document order. -/
def parseFreeChildren (search : TopoShape → Option Label) : List Label → List SNode
  | [] => []
  | c :: rest =>
    if isFreeShape c then parseLabelToNode search c :: parseFreeChildren search rest
    else parseFreeChildren search rest

end

/-- `parseRootLabelToNode`: the same construction applied to the root label
(no mesh-node test on the root itself). -/
def parseRootLabelToNode (search : TopoShape → Option Label) (root : Label) : SNode :=
  withChildren (initLabelNode root) (parseFreeChildren search root.children)

/-! ### Temporary-file staging (`writeBufferToFile` / `std::remove`) -/

/-- The on-disk staging state: the set of files present, as a list of
names. -/
def fsWrite (fs : List Str) (name : Str) : List Str :=
  if name ∈ fs then fs else fs ++ [name]

/-- `std::remove`. -/
def fsRemove (fs : List Str) (name : Str) : List Str :=
  fs.filter (fun f => f ≠ name)

/-- `convertFromStl`'s effect on the staging directory, with the external
reader's outcome as input: the buffer is written to `temp.stl` and neither
the failure return nor the success return removes it.  The second component
records whether a node was returned. -/
def convertFromStlFS (fs : List Str) (readOk : Bool) : List Str × Bool :=
  let fs1 := fsWrite fs "temp.stl".data
  if readOk then (fs1, true) else (fs1, false)

/-- `convertFromIges`'s effect on the staging directory: `temp.igs` is
written and removed on the read-failure path, the transfer-failure path and
the success path. -/
def convertFromIgesFS (fs : List Str) (readOk transferOk : Bool) : List Str × Bool :=
  let fs1 := fsWrite fs "temp.igs".data
  if !readOk then (fsRemove fs1 "temp.igs".data, false)
  else if !transferOk then (fsRemove fs1 "temp.igs".data, false)
  else (fsRemove fs1 "temp.igs".data, true)

/-- `convertFromDxf`'s effect on the staging directory: `temp.dxf` is
written and removed both on the open-failure path and right after the
content is read on the success path. -/
def convertFromDxfFS (fs : List Str) (openOk : Bool) : List Str × Bool :=
  let fs1 := fsWrite fs "temp.dxf".data
  if !openOk then (fsRemove fs1 "temp.dxf".data, false)
  else (fsRemove fs1 "temp.dxf".data, true)

/-! ### Derived notions used by the claims -/

mutual

/-- The spec's ShapeNode invariant: a node has a shape or a non-empty child
list; checked over a whole tree. -/
def treeOk : SNode → Bool
  | .node sh _ cs _ => (sh.isSome || !cs.isEmpty) && treeOkList cs

/-- The invariant over a list of subtrees. -/
def treeOkList : List SNode → Bool
  | [] => true
  | n :: rest => treeOk n && treeOkList rest

end

mutual

/-- Every aggregate (compound / composite solid) inside a shape has at least
one component. -/
def aggsNonempty : TopoShape → Bool
  | .compoundS subs => !subs.isEmpty && aggsNonemptyList subs
  | .compsolidS subs => !subs.isEmpty && aggsNonemptyList subs
  | _ => true

/-- `aggsNonempty` over a list of shapes. -/
def aggsNonemptyList : List TopoShape → Bool
  | [] => true
  | s :: rest => aggsNonempty s && aggsNonemptyList rest

end

mutual

/-- Every label in a document tree owns a shape whose aggregates are all
non-empty. -/
def labelShapesOk : Label → Bool
  | .node a _ cs => aggsNonempty a.shape && labelShapesOkList cs

/-- `labelShapesOk` over a list of labels. -/
def labelShapesOkList : List Label → Bool
  | [] => true
  | c :: rest => labelShapesOk c && labelShapesOkList rest

end

/-- Decidable equality of fallible results. -/
instance {e a : Type} [DecidableEq e] [DecidableEq a] : DecidableEq (Except e a)
  | .ok x, .ok y =>
    if h : x = y then .isTrue (by rw [h]) else .isFalse (by simp [h])
  | .error x, .error y =>
    if h : x = y then .isTrue (by rw [h]) else .isFalse (by simp [h])
  | .ok _, .error _ => .isFalse (by simp)
  | .error _, .ok _ => .isFalse (by simp)

/-- The claim's independent characterisation of the parser's record layer:
the (trimmed) value lines of the group-code-0 records, collected in the same
skip-blank / pair-up traversal the parsing loop performs. -/
def code0Values : List Str → List Str
  | [] => []
  | l :: rest =>
    if trim l = [] then code0Values rest
    else if looksLikeGroupCode (trim l) then
      match rest with
      | [] => []
      | v :: rest2 =>
        if stoiParse (trim l) = .ok 0 then trim v :: code0Values rest2
        else code0Values rest2
    else code0Values rest

/-- The entity keywords the reconstruction dispatch recognises as geometric. -/
def isGeomType (e : DxfEntity) : Bool :=
  e.type = "LINE".data || e.type = "CIRCLE".data || e.type = "ARC".data ||
  e.type = "POLYLINE".data || e.type = "LWPOLYLINE".data || e.type = "3DFACE".data

/-- A well-formed miniature DXF buffer: a SECTION marker, one LINE entity,
and an EOF marker. -/
def c10Content : Str :=
  ("0\nSECTION\n0\nLINE\n10\n0\n20\n0\n11\n1\n21\n2\n0\nEOF\n").data

/-! ### Writer round-trip artifacts: the concrete entities and line blocks
the writer emits and the parser recovers -/

def headerEnts : List DxfEntity :=
  [⟨"SECTION".data, [(1, "AC1015".data), (2, "HEADER".data), (9, "$INSUNITS".data),
      (70, "4".data)], "0".data, []⟩,
   ⟨"ENDSEC".data, [], "0".data, []⟩,
   ⟨"SECTION".data, [(2, "TABLES".data)], "0".data, []⟩,
   ⟨"TABLE".data, [(2, "LAYER".data)], "0".data, []⟩,
   ⟨"LAYER".data, [(2, "0".data), (6, "CONTINUOUS".data), (62, "7".data),
      (70, "0".data)], "0".data, "7".data⟩,
   ⟨"ENDTAB".data, [], "0".data, []⟩,
   ⟨"ENDSEC".data, [], "0".data, []⟩]

def entSecOpen : DxfEntity := ⟨"SECTION".data, [(2, "ENTITIES".data)], [], []⟩

def entSecC : DxfEntity := ⟨"SECTION".data, [(2, "ENTITIES".data)], "0".data, []⟩

def endsecEnt : DxfEntity := ⟨"ENDSEC".data, [], "0".data, []⟩

def eofEnt : DxfEntity := ⟨"EOF".data, [], "0".data, []⟩

def lineEdgeShape (pp : WPnt × WPnt) : TopoShape :=
  .edgeS ⟨some .lineC, pp.1, pp.2⟩

def circleEdgeShape (cr : (WPnt × Dec) × WPnt × WPnt) : TopoShape :=
  .edgeS ⟨some (.circleC cr.1.1 cr.1.2), cr.2.1, cr.2.2⟩

def lineEntOpen (pp : WPnt × WPnt) : DxfEntity :=
  ⟨"LINE".data,
   [(8, "0".data), (10, trim (decStr pp.1.x)), (11, trim (decStr pp.2.x)),
    (20, trim (decStr pp.1.y)), (21, trim (decStr pp.2.y)),
    (30, trim (decStr pp.1.z)), (31, trim (decStr pp.2.z))], [], []⟩

def lineEntC (pp : WPnt × WPnt) : DxfEntity :=
  ⟨"LINE".data,
   [(8, "0".data), (10, decStr pp.1.x), (11, decStr pp.2.x),
    (20, decStr pp.1.y), (21, decStr pp.2.y),
    (30, decStr pp.1.z), (31, decStr pp.2.z)], "0".data, []⟩

def circleEntOpen (cr : (WPnt × Dec) × WPnt × WPnt) : DxfEntity :=
  ⟨"CIRCLE".data,
   [(8, "0".data), (10, trim (decStr cr.1.1.x)), (20, trim (decStr cr.1.1.y)),
    (30, trim (decStr cr.1.1.z)), (40, trim (decStr cr.1.2))], [], []⟩

def circleEntC (cr : (WPnt × Dec) × WPnt × WPnt) : DxfEntity :=
  ⟨"CIRCLE".data,
   [(8, "0".data), (10, decStr cr.1.1.x), (20, decStr cr.1.1.y),
    (30, decStr cr.1.1.z), (40, decStr cr.1.2)], "0".data, []⟩

def wpntToQ (p : WPnt) : QPnt :=
  ⟨p.x.toRat, p.y.toRat, p.z.toRat⟩

def lineEdgeLines (pp : WPnt × WPnt) : List Str :=
  ["  0".data, "LINE".data, "  8".data, "0".data,
   " 10".data, decStr pp.1.x, " 20".data, decStr pp.1.y, " 30".data, decStr pp.1.z,
   " 11".data, decStr pp.2.x, " 21".data, decStr pp.2.y, " 31".data, decStr pp.2.z]

def circleEdgeLines (cr : (WPnt × Dec) × WPnt × WPnt) : List Str :=
  ["  0".data, "CIRCLE".data, "  8".data, "0".data,
   " 10".data, decStr cr.1.1.x, " 20".data, decStr cr.1.1.y, " 30".data, decStr cr.1.1.z,
   " 40".data, decStr cr.1.2]

def ppZ : WPnt × WPnt :=
  (⟨⟨0, 0⟩, ⟨0, 0⟩, ⟨1, 0⟩⟩, ⟨⟨1, 0⟩, ⟨0, 0⟩, ⟨1, 0⟩⟩)

def pp0 : WPnt × WPnt :=
  (⟨⟨0, 0⟩, ⟨0, 0⟩, ⟨0, 0⟩⟩, ⟨⟨5, 0⟩, ⟨0, 0⟩, ⟨0, 0⟩⟩)

/-! ### Wire / LWPOLYLINE writer artifacts (claim C9) -/

def wireOf (pps : List (WPnt × WPnt)) : TopoShape :=
  .wireS (pps.map fun pp => ⟨some .lineC, pp.1, pp.2⟩)

def codeKValues (k : ℤ) : List Str → List Str
  | [] => []
  | l :: rest =>
    if trim l = [] then codeKValues k rest
    else if looksLikeGroupCode (trim l) then
      match rest with
      | [] => []
      | v :: rest2 =>
        if stoiParse (trim l) = .ok k then trim v :: codeKValues k rest2
        else codeKValues k rest2
    else codeKValues k rest

def lwEnt0 (n : ℕ) : DxfEntity :=
  ⟨"LWPOLYLINE".data, [(8, "0".data), (70, "1".data), (90, trim (natDigits n))], [], []⟩

def lwEntMid (n : ℕ) (p : WPnt) : DxfEntity :=
  ⟨"LWPOLYLINE".data,
   [(8, "0".data), (10, trim (decStr p.x)), (20, trim (decStr p.y)),
    (30, trim (decStr p.z)), (70, "1".data), (90, trim (natDigits n))], [], []⟩

def lwEntC (n : ℕ) (p : WPnt) : DxfEntity :=
  ⟨"LWPOLYLINE".data,
   [(8, "0".data), (10, decStr p.x), (20, decStr p.y), (30, decStr p.z),
    (70, "1".data), (90, natDigits n)], "0".data, []⟩

def vertexLines (pts : List WPnt) : List Str :=
  pts.foldr (fun p acc =>
    [" 10".data, decStr p.x, " 20".data, decStr p.y, " 30".data, decStr p.z] ++ acc) []

def lwHeadLines (n : ℕ) : List Str :=
  ["  0".data, "LWPOLYLINE".data, "  8".data, "0".data,
   "  90".data, natDigits n, "  70".data, "1".data]

def originPnt : WPnt := ⟨⟨0, 0⟩, ⟨0, 0⟩, ⟨0, 0⟩⟩

def c9WirePps : List (WPnt × WPnt) :=
  [(⟨⟨0, 0⟩, ⟨0, 0⟩, ⟨0, 0⟩⟩, ⟨⟨1, 0⟩, ⟨0, 0⟩, ⟨0, 0⟩⟩),
   (⟨⟨1, 0⟩, ⟨0, 0⟩, ⟨0, 0⟩⟩, ⟨⟨1, 0⟩, ⟨1, 0⟩, ⟨0, 0⟩⟩)]

def arcEntOpen (c : WPnt) (r a b : Dec) : DxfEntity :=
  ⟨"ARC".data,
   [(8, "0".data), (10, trim (decStr c.x)), (20, trim (decStr c.y)),
    (30, trim (decStr c.z)), (40, trim (decStr r)), (50, trim (decStr a)),
    (51, trim (decStr b))], [], []⟩

def arcEntC (c : WPnt) (r a b : Dec) : DxfEntity :=
  ⟨"ARC".data,
   [(8, "0".data), (10, decStr c.x), (20, decStr c.y), (30, decStr c.z),
    (40, decStr r), (50, decStr a), (51, decStr b)], "0".data, []⟩

def edgeEntOpen (e : REdge) : Option DxfEntity :=
  match e.curve with
  | some .lineC => some (lineEntOpen (e.pFirst, e.pLast))
  | some (.circleC c r) => some (circleEntOpen ((c, r), e.pFirst, e.pLast))
  | some (.trimmedC (some (c, r)) a b) => some (arcEntOpen c r a b)
  | _ => none

def edgeEnt (e : REdge) : Option DxfEntity :=
  match e.curve with
  | some .lineC => some (lineEntC (e.pFirst, e.pLast))
  | some (.circleC c r) => some (circleEntC ((c, r), e.pFirst, e.pLast))
  | some (.trimmedC (some (c, r)) a b) => some (arcEntC c r a b)
  | _ => none

def lineRecOf (e : REdge) : Option DxfEntity :=
  match e.curve with
  | some .lineC => some (lineEntC (e.pFirst, e.pLast))
  | _ => none

def circleRecOf (e : REdge) : Option DxfEntity :=
  match e.curve with
  | some (.circleC c r) => some (circleEntC ((c, r), e.pFirst, e.pLast))
  | _ => none

def arcRecOf (e : REdge) : Option DxfEntity :=
  match e.curve with
  | some (.trimmedC (some (c, r)) a b) => some (arcEntC c r a b)
  | _ => none

def edgePassState : List REdge → List DxfEntity → DxfEntity → List DxfEntity × DxfEntity
  | [], acc, cur => (acc, cur)
  | e :: rest, acc, cur =>
    match edgeEntOpen e with
    | some ent => edgePassState rest (acc ++ [{ cur with layer := ['0'] }]) ent
    | none => edgePassState rest acc cur

def edgeCode10 (e : REdge) : List Str :=
  match e.curve with
  | some .lineC => [decStr e.pFirst.x]
  | some (.circleC c _) => [decStr c.x]
  | some (.trimmedC (some (c, _)) _ _) => [decStr c.x]
  | _ => []

def edgeCode20 (e : REdge) : List Str :=
  match e.curve with
  | some .lineC => [decStr e.pFirst.y]
  | some (.circleC c _) => [decStr c.y]
  | some (.trimmedC (some (c, _)) _ _) => [decStr c.y]
  | _ => []

def edgeCode30 (e : REdge) : List Str :=
  match e.curve with
  | some .lineC => [decStr e.pFirst.z]
  | some (.circleC c _) => [decStr c.z]
  | some (.trimmedC (some (c, _)) _ _) => [decStr c.z]
  | _ => []

def c9Edges : List REdge :=
  [⟨some .lineC, ⟨⟨0, 0⟩, ⟨0, 0⟩, ⟨0, 0⟩⟩, ⟨⟨1, 0⟩, ⟨0, 0⟩, ⟨0, 0⟩⟩⟩,
   ⟨none, ⟨⟨1, 0⟩, ⟨0, 0⟩, ⟨0, 0⟩⟩, ⟨⟨2, 0⟩, ⟨0, 0⟩, ⟨0, 0⟩⟩⟩,
   ⟨some (.circleC ⟨⟨2, 0⟩, ⟨1, 0⟩, ⟨0, 0⟩⟩ ⟨5, 1⟩), ⟨⟨2, 0⟩, ⟨0, 0⟩, ⟨0, 0⟩⟩,
    ⟨⟨3, 0⟩, ⟨0, 0⟩, ⟨0, 0⟩⟩⟩,
   ⟨some (.trimmedC (some (⟨⟨3, 0⟩, ⟨1, 0⟩, ⟨0, 0⟩⟩, ⟨5, 1⟩)) ⟨0, 0⟩ ⟨90, 0⟩),
    ⟨⟨3, 0⟩, ⟨0, 0⟩, ⟨0, 0⟩⟩, ⟨⟨4, 0⟩, ⟨0, 0⟩, ⟨0, 0⟩⟩⟩,
   ⟨some .otherC, ⟨⟨4, 0⟩, ⟨0, 0⟩, ⟨0, 0⟩⟩, ⟨⟨5, 0⟩, ⟨0, 0⟩, ⟨0, 0⟩⟩⟩,
   ⟨some (.trimmedC none ⟨0, 0⟩ ⟨90, 0⟩), ⟨⟨5, 0⟩, ⟨0, 0⟩, ⟨0, 0⟩⟩,
    ⟨⟨6, 0⟩, ⟨0, 0⟩, ⟨0, 0⟩⟩⟩]

/-! ### Concrete sample inputs used by counterexamples and witnesses -/

/-- A label carrying only a name attribute "B". -/
def labelB : Label :=
  .node ⟨some "B".data, none, none, none, false, false, false, .otherS []⟩ none []

/-- A reference label carrying its own name attribute "A" and referring to
`labelB`. -/
def labelA : Label :=
  .node ⟨some "A".data, none, none, none, false, false, false, .otherS []⟩ (some labelB) []

/-- A label with no attributes, no reference and no children. -/
def emptyRootLabel : Label :=
  .node ⟨none, none, none, none, false, false, false, .otherS []⟩ none []

/-- A DXF buffer holding one LINE entity whose code-10 value is not a
number. -/
def c1BadLineContent : Str :=
  ("0\nLINE\n 10\nabc\n 20\n0\n 11\n1\n 21\n0\n").data

/-- A DXF buffer holding one LWPOLYLINE with the closed flag and three
distinct vertices (0,0), (5,0), (5,5). -/
def c3PolyContent : Str :=
  ("0\nLWPOLYLINE\n 70\n1\n 10\n0\n 20\n0\n 10\n5\n 20\n0\n 10\n5\n 20\n5\n").data

/-- A straight-line edge from (0,0,0) to (1,0,0). -/
def sampleEdge : REdge :=
  ⟨some .lineC, ⟨⟨0, 0⟩, ⟨0, 0⟩, ⟨0, 0⟩⟩, ⟨⟨1, 0⟩, ⟨0, 0⟩, ⟨0, 0⟩⟩⟩

/-- A named free-shape label owning `sampleEdge`. -/
def freeChildLabel : Label :=
  .node ⟨some "child".data, none, none, none, false, true, true, .edgeS sampleEdge⟩ none []

/-- A bare root label with one free-shape child. -/
def rootWithChild : Label :=
  .node ⟨none, none, none, none, false, false, false, .otherS []⟩ none [freeChildLabel]

end Conv

namespace Conv

/-! ## Theorems about the claims -/

/-- C4: a label is classified as a mesh node iff it has no child labels, or
some child is a sub-shape, or it has no free-shape child; in particular a
childless label is always a mesh node, and a label all of whose children
are sub-shape components is always a mesh node. -/
theorem c4_mesh_node_iff :
    (∀ l : Label,
        isMeshNode l = true ↔
          (l.children = [] ∨ (∃ c ∈ l.children, c.attrs.subShapeFlag = true) ∨
            ¬ ∃ c ∈ l.children, isFreeShape c = true)) ∧
    (∀ l : Label, l.children = [] → isMeshNode l = true) ∧
    (∀ l : Label, (∀ c ∈ l.children, c.attrs.subShapeFlag = true) → isMeshNode l = true) := by
  refine ⟨fun l => ?_, fun l h => ?_, fun l h => ?_⟩
  · simp [isMeshNode, List.isEmpty_iff, List.any_eq_true]
  · simp [isMeshNode, List.isEmpty_iff, h]
  · by_cases hc : l.children = []
    · simp [isMeshNode, List.isEmpty_iff, hc]
    · simp [isMeshNode, List.isEmpty_iff, hc, List.any_eq_true]
      obtain ⟨c, hc2⟩ := List.exists_mem_of_ne_nil l.children hc
      exact Or.inl ⟨c, hc2, h c hc2⟩

/-- Witness for C4 at a concrete childless label. -/
theorem c4_mesh_node_iff_witness :
    ([] : List Label) = [] ∧ isMeshNode emptyRootLabel = true :=
  ⟨rfl, c4_mesh_node_iff.2.1 emptyRootLabel rfl⟩

/-- C5 counterexample: a reference label that carries its own name
attribute "A" and refers to a label named "B" resolves to "B", not to its
own name — name resolution does not look at the label's own attribute
first. -/
theorem c5_ref_name_counterexample :
    labelA.ref = some labelB ∧ labelA.attrs.nameAttr = some "A".data ∧
      getLabelName labelA ≠ "A".data ∧ getLabelName labelA = "B".data := by
  refine ⟨rfl, rfl, by decide, rfl⟩

/-- C5 amended: name resolution checks reference status first — a reference
label always resolves to the referred label's name, its own name attribute
notwithstanding; color resolution, by contrast, tries the label's own color
channels first and recurses onto the referred label only when they are all
absent. -/
theorem c5_resolution_order (l : Label) :
    (∀ r, l.ref = some r → getLabelName l = getLabelName r) ∧
    (∀ c, getLabelColorNoRef l = some c → getLabelColor l = some c) ∧
    (∀ r, getLabelColorNoRef l = none → l.ref = some r →
      getLabelColor l = getLabelColor r) := by
  obtain ⟨a, r0, cs⟩ := l
  refine ⟨fun r hr => ?_, fun c hc => ?_, fun r hn hr => ?_⟩
  · cases r0 with
    | none => simp [Label.ref] at hr
    | some rl =>
      simp only [Label.ref, Option.some.injEq] at hr
      subst hr
      simp [getLabelName]
  · cases r0 with
    | none => simpa [getLabelColor] using hc
    | some rl => simp [getLabelColor, hc]
  · cases r0 with
    | none => simp [Label.ref] at hr
    | some rl =>
      simp only [Label.ref, Option.some.injEq] at hr
      subst hr
      simp [getLabelColor, hn]

/-- Witness for C5's amended statement at the concrete reference label. -/
theorem c5_resolution_order_witness :
    labelA.ref = some labelB ∧ getLabelName labelA = getLabelName labelB :=
  ⟨rfl, (c5_resolution_order labelA).1 labelB rfl⟩

/-- C6: when color resolution finds no color in any channel, directly or
through references, the constructed node's color field is nonetheless
present — it holds the empty string, because `initLabelNode` discards the
resolver's success flag and wraps the untouched out-parameter. -/
theorem c6_missing_color_present_empty (l : Label) (h : getLabelColor l = none) :
    (initLabelNode l).color = some [] := by
  simp [initLabelNode, h, SNode.color]

/-- Witness for C6 at a concrete attribute-less label. -/
theorem c6_missing_color_present_empty_witness :
    getLabelColor emptyRootLabel = none ∧
      (initLabelNode emptyRootLabel).color = some [] :=
  ⟨rfl, c6_missing_color_present_empty emptyRootLabel rfl⟩

/-- C7: the IGES and DXF staging files are removed on every exit path, but
`convertFromStl` never removes `temp.stl` — on the read-failure return and
on the success return alike the file stays behind. -/
theorem c7_temp_file_cleanup :
    (∀ fs readOk transferOk,
        "temp.igs".data ∉ (convertFromIgesFS fs readOk transferOk).1) ∧
    (∀ fs openOk, "temp.dxf".data ∉ (convertFromDxfFS fs openOk).1) ∧
    (∀ fs readOk, "temp.stl".data ∈ (convertFromStlFS fs readOk).1) := by
  refine ⟨fun fs r t => ?_, fun fs o => ?_, fun fs r => ?_⟩
  · cases r <;> cases t <;>
      simp [convertFromIgesFS, fsRemove, List.mem_filter]
  · cases o <;> simp [convertFromDxfFS, fsRemove, List.mem_filter]
  · cases r <;> simp [convertFromStlFS, fsWrite] <;>
      split <;> simp_all

/-- C1: a DXF buffer that opens fine but holds a LINE entity with a
non-numeric coordinate value makes the whole conversion abort with an
exception (`std::stod` throws and nothing catches it), instead of skipping
just that entity. -/
theorem c1_nonnumeric_aborts :
    convertFromDxf c1BadLineContent true = .error () := by
  rfl

/-- C3: an LWPOLYLINE with three distinct vertices and the closed flag
parses into an entity whose group-code map retains only the last x and the
last y value (the map is last-write-wins per code), so reconstruction finds
a single point and produces no wire at all — the conversion returns an
empty compound, not a 3-edge closed loop. -/
theorem c3_polyline_loses_vertices :
    parseDxfEntities c3PolyContent =
      .ok [⟨"LWPOLYLINE".data,
            [(10, "5".data), (20, "5".data), (70, "1".data)], "0".data, []⟩] ∧
    convertFromDxf c3PolyContent true =
      .ok (some ⟨[], "DXF Import (1 entities)".data⟩) := by
  exact ⟨rfl, by rfl⟩

/-- `parseShapeList` preserves emptiness. -/
theorem parseShapeList_isEmpty (search : TopoShape → Option Label) (ss : List TopoShape) :
    (parseShapeList search ss).isEmpty = ss.isEmpty := by
  cases ss <;> rfl

/-- Every node `parseShape` builds satisfies the shape-or-children invariant
when the shape has no empty aggregate. -/
theorem parseShape_treeOk (search : TopoShape → Option Label) :
    ∀ s, aggsNonempty s = true → treeOk (parseShape search s) = true :=
  parseShape.induct search
    (fun s => aggsNonempty s = true → treeOk (parseShape search s) = true)
    (fun ss => aggsNonemptyList ss = true → treeOkList (parseShapeList search ss) = true)
    (fun subs ih h => by
      rw [aggsNonempty] at h
      simp only [Bool.and_eq_true] at h
      rw [parseShape]
      simp [treeOk, withChildren, initGroupNode, SNode.shape, SNode.color, SNode.name,
        parseShapeList_isEmpty, h.1, ih h.2])
    (fun subs ih h => by
      rw [aggsNonempty] at h
      simp only [Bool.and_eq_true] at h
      rw [parseShape]
      simp [treeOk, withChildren, initGroupNode, SNode.shape, SNode.color, SNode.name,
        parseShapeList_isEmpty, h.1, ih h.2])
    (fun e _ => by simp [parseShape, treeOk, initShapeNode, treeOkList])
    (fun es _ => by simp [parseShape, treeOk, initShapeNode, treeOkList])
    (fun es _ => by simp [parseShape, treeOk, initShapeNode, treeOkList])
    (fun es _ => by simp [parseShape, treeOk, initShapeNode, treeOkList])
    (fun _ => by simp [parseShapeList, treeOkList])
    (fun s rest ih1 ih2 h => by
      rw [aggsNonemptyList] at h
      simp only [Bool.and_eq_true] at h
      simp [parseShapeList, treeOkList, ih1 h.1, ih2 h.2])

/-- When a free-shape child exists, the child loop yields at least one
node. -/
theorem parseFreeChildren_ne_nil (search : TopoShape → Option Label) :
    ∀ ls : List Label, (∃ c ∈ ls, isFreeShape c = true) →
      parseFreeChildren search ls ≠ [] := by
  intro ls
  induction ls with
  | nil => simp
  | cons c rest ih =>
    intro h
    by_cases hf : isFreeShape c = true
    · simp [parseFreeChildren, hf]
    · simp only [List.mem_cons] at h
      obtain ⟨d, hd, hfd⟩ := h
      rcases hd with rfl | hd
      · exact absurd hfd hf
      · simp [parseFreeChildren, hf]
        exact ih ⟨d, hd, hfd⟩

/-- A label that is not a mesh node has a free-shape child. -/
theorem not_meshNode_free_child (a : LabelAttrs) (r : Option Label) (cs : List Label)
    (h : ¬ isMeshNode (.node a r cs) = true) :
    ∃ c ∈ cs, isFreeShape c = true := by
  simp [isMeshNode, Label.children, List.isEmpty_iff, List.any_eq_true] at h
  exact h.2.2

/-- Every node `parseLabelToNode` builds satisfies the invariant when the
document labels all pass `labelShapesOk`. -/
theorem parseLabelToNode_treeOk (search : TopoShape → Option Label) :
    ∀ l, labelShapesOk l = true → treeOk (parseLabelToNode search l) = true :=
  parseLabelToNode.induct search
    (fun l => labelShapesOk l = true → treeOk (parseLabelToNode search l) = true)
    (fun ls => labelShapesOkList ls = true → treeOkList (parseFreeChildren search ls) = true)
    (fun a r cs hm h => by
      rw [labelShapesOk] at h
      simp only [Bool.and_eq_true] at h
      rw [parseLabelToNode]
      simp only [hm, if_true]
      exact parseShape_treeOk search a.shape h.1)
    (fun a r cs hm ih h => by
      rw [labelShapesOk] at h
      simp only [Bool.and_eq_true] at h
      rw [parseLabelToNode]
      simp only [hm, if_false]
      have hne := parseFreeChildren_ne_nil search cs (not_meshNode_free_child a r cs hm)
      simp [treeOk, withChildren, initLabelNode, SNode.shape, SNode.color, SNode.name,
        List.isEmpty_iff, hne, ih h.2])
    (fun h => by simp [parseFreeChildren, treeOkList])
    (fun c rest hf ih1 ih2 h => by
      rw [labelShapesOkList] at h
      simp only [Bool.and_eq_true] at h
      simp [parseFreeChildren, hf, treeOkList, ih1 h.1, ih2 h.2])
    (fun c rest hf ih h => by
      rw [labelShapesOkList] at h
      simp only [Bool.and_eq_true] at h
      simp [parseFreeChildren, hf, ih h.2])

/-- The child loop yields invariant-satisfying subtrees. -/
theorem parseFreeChildren_treeOk (search : TopoShape → Option Label) :
    ∀ ls, labelShapesOkList ls = true → treeOkList (parseFreeChildren search ls) = true := by
  intro ls
  induction ls with
  | nil => simp [parseFreeChildren, treeOkList]
  | cons c rest ih =>
    intro h
    rw [labelShapesOkList] at h
    simp only [Bool.and_eq_true] at h
    by_cases hf : isFreeShape c = true
    · simp [parseFreeChildren, hf, treeOkList, parseLabelToNode_treeOk search c h.1, ih h.2]
    · simp [parseFreeChildren, hf, ih h.2]

/-- C8 counterexample: extraction from a document whose root label has no
children yields a root ShapeNode with neither a shape nor children,
violating the stated invariant. -/
theorem c8_empty_root_counterexample :
    (parseRootLabelToNode (fun _ => none) emptyRootLabel).shape = none ∧
    (parseRootLabelToNode (fun _ => none) emptyRootLabel).children = [] ∧
    treeOk (parseRootLabelToNode (fun _ => none) emptyRootLabel) = false :=
  ⟨rfl, rfl, rfl⟩

/-- C8 amended: every node of every child subtree produced by scene-graph
extraction has a shape or a non-empty child list, provided every
compound/composite-solid aggregate among the document's shapes has at least
one component; the root node itself is exempt (it has both absent exactly
when the document offers no free-shape children). -/
theorem c8_invariant_amended (search : TopoShape → Option Label) (root : Label)
    (h : labelShapesOk root = true) :
    treeOkList (parseRootLabelToNode search root).children = true := by
  obtain ⟨a, r, cs⟩ := root
  rw [labelShapesOk] at h
  simp only [Bool.and_eq_true] at h
  simp only [parseRootLabelToNode, withChildren, SNode.children, Label.children]
  exact parseFreeChildren_treeOk search cs h.2

/-- Witness for C8's amended statement on a one-child document. -/
theorem c8_invariant_amended_witness :
    labelShapesOk rootWithChild = true ∧
      treeOkList (parseRootLabelToNode (fun _ => none) rootWithChild).children = true :=
  ⟨by decide, c8_invariant_amended (fun _ => none) rootWithChild (by decide)⟩

/-- Closing the open entity appends its type. -/
theorem closeCur_types (st : PState) :
    (closeCur st).map (fun e => e.type) =
      st.entities.map (fun e => e.type) ++ (st.cur.map (fun e => e.type)).toList := by
  cases st with
  | mk es cur layer => cases cur <;> simp [closeCur]

/-- A code-0 pair appends exactly one entity type, the value line. -/
theorem procPair_types_zero (v : Str) (st : PState) :
    ((procPair 0 v st).entities.map (fun e => e.type) ++
        (((procPair 0 v st).cur.map (fun e => e.type)).toList)) =
      (st.entities.map (fun e => e.type) ++ (st.cur.map (fun e => e.type)).toList) ++ [v] := by
  simp [procPair, closeCur_types, emptyEntity]

/-- A non-zero code leaves the stored entity types unchanged. -/
theorem procPair_types_nonzero (code : ℤ) (v : Str) (st : PState) (h : code ≠ 0) :
    ((procPair code v st).entities.map (fun e => e.type) ++
        (((procPair code v st).cur.map (fun e => e.type)).toList)) =
      (st.entities.map (fun e => e.type) ++ (st.cur.map (fun e => e.type)).toList) := by
  cases st with
  | mk es cur layer =>
    cases cur with
    | none => simp [procPair, h]
    | some e =>
      by_cases h8 : code = 8 <;> by_cases h62 : code = 62 <;>
        simp_all [procPair]

/-- The parsing loop stores exactly one entity per group-code-0 record, in
order, whatever the record's value (SECTION, ENDSEC, TABLE, EOF included). -/
theorem parseLoop_types (lines : List Str) (st : PState) :
    ∀ es, parseLoop lines st = .ok es →
      es.map (fun e => e.type) =
        st.entities.map (fun e => e.type) ++ (st.cur.map (fun e => e.type)).toList ++
          code0Values lines := by
  induction lines, st using parseLoop.induct with
  | case1 st =>
    intro es h
    simp only [parseLoop, Except.ok.injEq] at h
    subst h
    simp [code0Values, closeCur_types]
  | case2 l rest st t ht ih =>
    have ht2 : trim l = [] := ht
    intro es h
    rw [parseLoop] at h
    rw [code0Values.eq_def]
    simp only [ht2, if_true] at h ⊢
    exact ih es h
  | case3 l rest st t ht hc e0 hs =>
    have ht2 : ¬ trim l = [] := ht
    have hc2 : looksLikeGroupCode (trim l) = true := hc
    have hs2 : stoiParse (trim l) = Except.error e0 := hs
    intro es h
    rw [parseLoop] at h
    simp only [ht2, if_false, hc2, if_true, hs2] at h
    exact absurd h (by simp)
  | case4 l st t ht hc code hs =>
    have ht2 : ¬ trim l = [] := ht
    have hc2 : looksLikeGroupCode (trim l) = true := hc
    have hs2 : stoiParse (trim l) = Except.ok code := hs
    intro es h
    rw [parseLoop] at h
    rw [code0Values.eq_def]
    simp only [ht2, if_false, hc2, if_true, hs2, Except.ok.injEq] at h ⊢
    subst h
    simp [closeCur_types]
  | case5 l st t ht hc code hs v rest2 ih =>
    have ht2 : ¬ trim l = [] := ht
    have hc2 : looksLikeGroupCode (trim l) = true := hc
    have hs2 : stoiParse (trim l) = Except.ok code := hs
    intro es h
    rw [parseLoop] at h
    rw [code0Values.eq_def]
    simp only [ht2, if_false, hc2, if_true, hs2] at h ⊢
    have hrec := ih es h
    rw [hrec]
    by_cases h0 : code = 0
    · subst h0
      simp only [if_pos rfl]
      rw [procPair_types_zero]
      simp
    · have hne : ¬ ((Except.ok code : Except Unit ℤ) = Except.ok 0) := by simp [h0]
      simp only [hne, if_false]
      rw [procPair_types_nonzero code (trim v) st h0]
  | case6 l rest st t ht hc ih =>
    have ht2 : ¬ trim l = [] := ht
    have hc2 : ¬ looksLikeGroupCode (trim l) = true := hc
    intro es h
    rw [parseLoop] at h
    rw [code0Values.eq_def]
    simp only [ht2, if_false, hc2] at h ⊢
    exact ih es h

/-- Unrecognised entity types yield no geometry. -/
theorem entityToShape_not_geom (e : DxfEntity) (h : isGeomType e = false) :
    entityToShape e = .ok none := by
  simp only [isGeomType, Bool.or_eq_false_iff, decide_eq_false_iff_not] at h
  obtain ⟨⟨⟨⟨⟨h1, h2⟩, h3⟩, h4⟩, h5⟩, h6⟩ := h
  simp [entityToShape, h1, h2, h3, h4, h5, h6]

/-- The compound holds at most one shape per geometric-type entity, and
non-geometric entities contribute nothing. -/
theorem buildShapes_length :
    ∀ (es : List DxfEntity) (ss : List RShape), buildShapes es = .ok ss →
      ss.length ≤ (es.filter isGeomType).length ∧
      ss.length + (es.filter (fun e => !isGeomType e)).length ≤ es.length := by
  intro es
  induction es with
  | nil =>
    intro ss h
    simp only [buildShapes, Except.ok.injEq] at h
    subst h
    simp
  | cons e rest ih =>
    intro ss h
    rw [buildShapes] at h
    cases h1 : entityToShape e with
    | error e0 => rw [h1] at h; exact absurd h (by simp [Bind.bind, Except.bind])
    | ok so =>
      rw [h1] at h
      cases h2 : buildShapes rest with
      | error e0 => rw [h2] at h; exact absurd h (by simp [Bind.bind, Except.bind])
      | ok ss0 =>
        rw [h2] at h
        simp only [Bind.bind, Except.bind, Except.ok.injEq] at h
        obtain ⟨hle, hlt⟩ := ih ss0 h2
        cases so with
        | none =>
          subst h
          by_cases hg : isGeomType e = true <;> simp [List.filter, hg] <;> omega
        | some sh =>
          subst h
          have hg : isGeomType e = true := by
            by_contra hng
            rw [entityToShape_not_geom e (by simpa using hng)] at h1
            simp at h1
          simp [List.filter, hg]
          omega

/-- C10: every group-code-0 record of the input becomes a stored entity
(structural markers included), the returned node's name reports the total
record count, the count bounds the geometry strictly whenever a
non-geometric record is present, and the node is returned with its compound
payload even when no record yields geometry. -/
theorem c10_record_storage (content : Str) (es : List DxfEntity)
    (h : parseDxfEntities content = .ok es) :
    es.map (fun e => e.type) = code0Values (getLines content) ∧
    (∀ ss, buildShapes es = .ok ss →
      convertFromDxf content true =
        .ok (some ⟨ss, "DXF Import (".data ++ natDigits es.length ++ " entities)".data⟩) ∧
      ss.length ≤ (es.filter isGeomType).length ∧
      ((∃ e ∈ es, isGeomType e = false) → ss.length < es.length)) := by
  constructor
  · have := parseLoop_types (getLines content) ⟨[], none, ['0']⟩ es h
    simpa using this
  · intro ss hss
    refine ⟨?_, (buildShapes_length es ss hss).1, fun hex => ?_⟩
    · simp only [convertFromDxf, if_true]
      rw [h]
      simp only [Bind.bind, Except.bind]
      rw [hss]
    · have h2 := (buildShapes_length es ss hss).2
      have : 0 < (es.filter (fun e => !isGeomType e)).length := by
        obtain ⟨e, he, hge⟩ := hex
        have : e ∈ es.filter (fun e => !isGeomType e) := by
          simp [List.mem_filter, he, hge]
        exact List.length_pos.mpr (by intro hnil; rw [hnil] at this; simp at this)
      omega

/-- Witness for C10 on the miniature well-formed buffer. -/
theorem c10_record_storage_witness :
    parseDxfEntities c10Content =
      .ok [⟨"SECTION".data, [], "0".data, []⟩,
           ⟨"LINE".data, [(10, "0".data), (11, "1".data), (20, "0".data), (21, "2".data)],
            "0".data, []⟩,
           ⟨"EOF".data, [], "0".data, []⟩] ∧
    ([⟨"SECTION".data, [], "0".data, []⟩,
      ⟨"LINE".data, [(10, "0".data), (11, "1".data), (20, "0".data), (21, "2".data)],
       "0".data, []⟩,
      ⟨"EOF".data, [], "0".data, []⟩] : List DxfEntity).map (fun e => e.type) =
      code0Values (getLines c10Content) := by
  constructor
  · rfl
  · exact (c10_record_storage c10Content _ rfl).1



theorem isDigitChar_digitChar (n : ℕ) : isDigitChar (digitChar n) = true := by
  unfold digitChar
  split_ifs <;> decide

theorem digitVal_digitChar (n : ℕ) (h : n < 10) : digitVal (digitChar n) = n := by
  unfold digitChar
  split_ifs with h0 h1 h2 h3 h4 h5 h6 h7 h8 <;>
    first
      | (subst_vars; decide)
      | (have : n = 9 := by omega
         subst this; decide)

theorem digitsVal_cons (c : Char) (b : Str) :
    digitsVal (c :: b) = b.foldl (fun acc c => acc * 10 + digitVal c) (digitVal c) := by
  simp [digitsVal]

theorem digitsVal_foldl_acc :
    ∀ (b : Str) (acc : ℕ),
      b.foldl (fun acc c => acc * 10 + digitVal c) acc =
        acc * 10 ^ b.length + digitsVal b := by
  intro b
  induction b with
  | nil => intro acc; simp [digitsVal]
  | cons c b ih =>
    intro acc
    have h1 := ih (acc * 10 + digitVal c)
    have h2 := ih (digitVal c)
    simp only [List.foldl_cons] at *
    rw [h1]
    rw [digitsVal_cons, h2]
    simp [List.length_cons]
    ring

theorem digitsVal_append (a b : Str) :
    digitsVal (a ++ b) = digitsVal a * 10 ^ b.length + digitsVal b := by
  simp only [digitsVal, List.foldl_append]
  exact digitsVal_foldl_acc b _

theorem digitsVal_replicate_zero (k : ℕ) :
    digitsVal (List.replicate k '0') = 0 := by
  induction k with
  | zero => rfl
  | succ k ih =>
    rw [List.replicate_succ]
    rw [digitsVal_cons]
    have := digitsVal_foldl_acc (List.replicate k '0') (digitVal '0')
    rw [this, ih]
    simp [digitVal]

theorem digitsVal_natDigitsAux :
    ∀ (fuel n : ℕ), n < 10 ^ fuel → digitsVal (natDigitsAux fuel n) = n := by
  intro fuel
  induction fuel with
  | zero =>
    intro n h
    simp at h
    subst h
    rfl
  | succ fuel ih =>
    intro n h
    rw [natDigitsAux]
    by_cases h10 : n < 10
    · simp only [h10, if_true]
      rw [digitsVal_cons]
      simp [digitVal_digitChar n h10, digitsVal]
    · simp only [h10, if_false]
      rw [digitsVal_append]
      have hdiv : n / 10 < 10 ^ fuel := by
        rw [Nat.div_lt_iff_lt_mul (by omega)]
        calc n < 10 ^ (fuel + 1) := h
        _ = 10 ^ fuel * 10 := by ring
      rw [ih (n / 10) hdiv]
      have : digitsVal [digitChar (n % 10)] = n % 10 := by
        rw [digitsVal_cons]
        simp [digitsVal, digitVal_digitChar (n % 10) (Nat.mod_lt n (by omega))]
      rw [this]
      simp
      omega

theorem lt_ten_pow_succ (n : ℕ) : n < 10 ^ (n + 1) := by
  calc n < 2 ^ n := Nat.lt_two_pow n
  _ ≤ 10 ^ n := Nat.pow_le_pow_left (by omega) n
  _ ≤ 10 ^ (n + 1) := Nat.pow_le_pow_right (by omega) (by omega)

theorem digitsVal_natDigits (n : ℕ) : digitsVal (natDigits n) = n :=
  digitsVal_natDigitsAux (n + 1) n (lt_ten_pow_succ n)

theorem natDigitsAux_all_digits :
    ∀ (fuel n : ℕ), ∀ c ∈ natDigitsAux fuel n, isDigitChar c = true := by
  intro fuel
  induction fuel with
  | zero => intro n c hc; simp [natDigitsAux] at hc
  | succ fuel ih =>
    intro n c hc
    rw [natDigitsAux] at hc
    by_cases h10 : n < 10
    · simp only [h10, if_true, List.mem_singleton] at hc
      subst hc
      exact isDigitChar_digitChar n
    · simp only [h10, if_false, List.mem_append, List.mem_singleton] at hc
      rcases hc with hc | hc
      · exact ih (n / 10) c hc
      · subst hc; exact isDigitChar_digitChar (n % 10)

theorem natDigits_all_digits (n : ℕ) : ∀ c ∈ natDigits n, isDigitChar c = true :=
  natDigitsAux_all_digits (n + 1) n

theorem natDigitsAux_ne_nil (fuel n : ℕ) : natDigitsAux (fuel + 1) n ≠ [] := by
  rw [natDigitsAux]
  by_cases h10 : n < 10 <;> simp [h10]

theorem natDigits_ne_nil (n : ℕ) : natDigits n ≠ [] :=
  natDigitsAux_ne_nil n n

theorem natDigitsAux_length_le :
    ∀ (fuel n k : ℕ), n < 10 ^ k → 1 ≤ k → (natDigitsAux fuel n).length ≤ k := by
  intro fuel
  induction fuel with
  | zero => intro n k _ _; simp [natDigitsAux]
  | succ fuel ih =>
    intro n k h hk
    rw [natDigitsAux]
    by_cases h10 : n < 10
    · simpa [h10] using hk
    · simp only [h10, if_false, List.length_append, List.length_singleton]
      have hk2 : 2 ≤ k := by
        by_contra hlt
        have : k = 1 := by omega
        subst this
        simp at h
        omega
      have hdiv : n / 10 < 10 ^ (k - 1) := by
        rw [Nat.div_lt_iff_lt_mul (by omega)]
        calc n < 10 ^ k := h
        _ = 10 ^ (k - 1) * 10 := by
            rw [← Nat.pow_succ]
            congr 1
            omega
      have := ih (n / 10) (k - 1) hdiv (by omega)
      omega

theorem digit_char_facts (c : Char) (h : isDigitChar c = true) :
    isSpaceChar c = false ∧ isTrimChar c = false ∧ c ≠ '-' ∧ c ≠ '+' ∧
      c ≠ '.' ∧ c ≠ '\n' := by
  simp only [isDigitChar, Bool.and_eq_true, decide_eq_true_eq] at h
  refine ⟨?_, ?_, ?_, ?_, ?_, ?_⟩
  · simp only [isSpaceChar, Bool.or_eq_false_iff, decide_eq_false_iff_not]
    refine ⟨⟨⟨⟨⟨?_, ?_⟩, ?_⟩, ?_⟩, ?_⟩, ?_⟩ <;> (rintro rfl; exact absurd h (by decide))
  · simp only [isTrimChar, Bool.or_eq_false_iff, decide_eq_false_iff_not]
    refine ⟨⟨⟨?_, ?_⟩, ?_⟩, ?_⟩ <;> (rintro rfl; exact absurd h (by decide))
  · rintro rfl; exact absurd h (by decide)
  · rintro rfl; exact absurd h (by decide)
  · rintro rfl; exact absurd h (by decide)
  · rintro rfl; exact absurd h (by decide)

theorem takeWhile_all (p : Char → Bool) (s : Str) (h : ∀ c ∈ s, p c = true) :
    s.takeWhile p = s := by
  induction s with
  | nil => rfl
  | cons c rest ih =>
    rw [List.takeWhile_cons]
    rw [h c (by simp)]
    simp only [if_true]
    rw [ih (fun d hd => h d (by simp [hd]))]

theorem takeWhile_append_stop (p : Char → Bool) (a b : Str) (c0 : Char)
    (ha : ∀ c ∈ a, p c = true) (hc : p c0 = false) :
    (a ++ c0 :: b).takeWhile p = a := by
  induction a with
  | nil => simp [List.takeWhile_cons, hc]
  | cons c rest ih =>
    simp only [List.cons_append, List.takeWhile_cons]
    rw [ha c (by simp)]
    simp only [if_true]
    rw [ih (fun d hd => ha d (by simp [hd]))]

theorem dropWhile_cons_false (p : Char → Bool) (c : Char) (s : Str) (h : p c = false) :
    (c :: s).dropWhile p = c :: s := by
  simp [List.dropWhile_cons, h]

theorem dropWhile_all_false (p : Char → Bool) (s : Str) (h : ∀ c ∈ s, p c = false) :
    s.dropWhile p = s := by
  cases s with
  | nil => rfl
  | cons c rest => exact dropWhile_cons_false p c rest (h c (by simp))

theorem trim_eq_self (s : Str) (h : ∀ c ∈ s, isTrimChar c = false) : trim s = s := by
  unfold trim
  rw [dropWhile_all_false _ s h]
  rw [dropWhile_all_false _ s.reverse (fun c hc => h c (List.mem_reverse.mp hc))]
  exact List.reverse_reverse s

theorem splitSign_nonsign (s : Str) (hne : s ≠ [])
    (h : ∀ c ∈ s, isDigitChar c = true) : splitSign s = (false, s) := by
  cases s with
  | nil => exact absurd rfl hne
  | cons c rest =>
    have hf := digit_char_facts c (h c (by simp))
    simp [splitSign, hf.2.2.1, hf.2.2.2.1]

/-- Characters of a printed decimal: digits, minus, dot only. -/
theorem decStr_chars (d : Dec) :
    ∀ c ∈ decStr d, isDigitChar c = true ∨ c = '-' ∨ c = '.' := by
  intro c hc
  unfold decStr at hc
  by_cases he : d.e = 0
  · simp only [he, if_true] at hc
    unfold intDigits at hc
    by_cases hm : d.m < 0
    · simp only [hm, if_true, List.mem_cons] at hc
      rcases hc with rfl | hc
      · exact Or.inr (Or.inl rfl)
      · exact Or.inl (natDigits_all_digits _ c hc)
    · simp only [hm, if_false] at hc
      exact Or.inl (natDigits_all_digits _ c hc)
  · simp only [he, if_false] at hc
    simp only [List.mem_append, List.mem_cons, List.mem_replicate] at hc
    rcases hc with (hc | hc) | rfl | (hc | hc)
    · by_cases hm : d.m < 0
      · simp only [hm, if_true, List.mem_singleton] at hc
        exact Or.inr (Or.inl hc)
      · simp only [hm, if_false, List.not_mem_nil] at hc
    · exact Or.inl (natDigits_all_digits _ c hc)
    · exact Or.inr (Or.inr rfl)
    · exact Or.inl (by rw [hc.2]; decide)
    · exact Or.inl (natDigits_all_digits _ c hc)

theorem decStr_no_trim (d : Dec) : ∀ c ∈ decStr d, isTrimChar c = false := by
  intro c hc
  rcases decStr_chars d c hc with h | rfl | rfl
  · exact (digit_char_facts c h).2.1
  · decide
  · decide

theorem trim_decStr (d : Dec) : trim (decStr d) = decStr d :=
  trim_eq_self _ (decStr_no_trim d)

theorem decStr_no_newline (d : Dec) : ∀ c ∈ decStr d, c ≠ '\n' := by
  intro c hc
  rcases decStr_chars d c hc with h | rfl | rfl
  · exact (digit_char_facts c h).2.2.2.2.2
  · decide
  · decide

/-- `splitSign` does not consume a leading digit. -/
theorem splitSign_digit_head (a x : Str) (hane : a ≠ [])
    (ha : ∀ c ∈ a, isDigitChar c = true) : splitSign (a ++ x) = (false, a ++ x) := by
  cases a with
  | nil => exact absurd rfl hane
  | cons c rest =>
    have hf := digit_char_facts c (ha c (by simp))
    simp [splitSign, hf.2.2.1, hf.2.2.2.1]

/-- Core inverse: parsing a printed string of shape `sign digits . digits`. -/
theorem stodParse_digits_dot (sgn : Bool) (a b : Str)
    (hane : a ≠ []) (ha : ∀ c ∈ a, isDigitChar c = true)
    (hb : ∀ c ∈ b, isDigitChar c = true) :
    stodParse ((if sgn then ['-'] else []) ++ a ++ '.' :: b) =
      .ok ((if sgn then -1 else 1) *
        ((digitsVal (a ++ b) : ℚ) / (10 : ℚ) ^ b.length)) := by
  have h3 : List.takeWhile isDigitChar (a ++ '.' :: b) = a :=
    takeWhile_append_stop isDigitChar a b '.' ha (by decide)
  have h5 : fracSplit ('.' :: b) = (b, []) := by
    simp [fracSplit, takeWhile_all _ b hb, List.drop_length]
  have h6 : expFactor [] = 0 := rfl
  cases sgn with
  | true =>
    have h1 : List.dropWhile isSpaceChar ('-' :: (a ++ '.' :: b)) = '-' :: (a ++ '.' :: b) :=
      dropWhile_cons_false _ _ _ (by decide)
    have h2 : splitSign ('-' :: (a ++ '.' :: b)) = (true, a ++ '.' :: b) := by
      simp [splitSign]
    unfold stodParse
    simp only [if_true, List.cons_append, List.nil_append]
    simp only [h1, h2, h3, List.drop_left, h5, h6, hane]
    simp [hane]
  | false =>
    have hhead : List.dropWhile isSpaceChar (a ++ '.' :: b) = a ++ '.' :: b := by
      cases a with
      | nil => exact absurd rfl hane
      | cons c rest =>
        exact dropWhile_cons_false _ _ _ (digit_char_facts c (ha c (by simp))).1
    have h2 : splitSign (a ++ '.' :: b) = (false, a ++ '.' :: b) :=
      splitSign_digit_head a ('.' :: b) hane ha
    unfold stodParse
    simp [hhead, h2, h3, List.drop_left, h5, h6, hane]

/-- Core inverse: parsing a printed string of shape `sign digits`. -/
theorem stodParse_digits (sgn : Bool) (a : Str)
    (hane : a ≠ []) (ha : ∀ c ∈ a, isDigitChar c = true) :
    stodParse ((if sgn then ['-'] else []) ++ a) =
      .ok ((if sgn then -1 else 1) * (digitsVal a : ℚ)) := by
  have h3 : List.takeWhile isDigitChar a = a := takeWhile_all _ a ha
  have h4 : fracSplit [] = ([], []) := rfl
  have h6 : expFactor [] = 0 := rfl
  cases sgn with
  | true =>
    have h1 : List.dropWhile isSpaceChar ('-' :: a) = '-' :: a :=
      dropWhile_cons_false _ _ _ (by decide)
    have h2 : splitSign ('-' :: a) = (true, a) := by simp [splitSign]
    unfold stodParse
    simp only [if_true, List.cons_append, List.nil_append]
    simp only [h1, h2, h3, List.drop_length, h4, h6]
    simp [hane]
  | false =>
    have hhead : List.dropWhile isSpaceChar a = a := by
      cases a with
      | nil => exact absurd rfl hane
      | cons c rest =>
        exact dropWhile_cons_false _ _ _ (digit_char_facts c (ha c (by simp))).1
    have h2 : splitSign a = (false, a) := by
      have := splitSign_digit_head a [] hane ha
      simpa using this
    unfold stodParse
    simp [hhead, h2, h3, List.drop_length, h4, h6, hane]

theorem natAbs_cast_neg (m : ℤ) (hm : m < 0) : ((m.natAbs : ℕ) : ℚ) = -(m : ℚ) := by
  have h2 : (m.natAbs : ℤ) = -m := by omega
  calc ((m.natAbs : ℕ) : ℚ) = (((m.natAbs : ℤ)) : ℚ) := (Int.cast_natCast _).symm
  _ = ((-m : ℤ) : ℚ) := by rw [h2]
  _ = -(m : ℚ) := Int.cast_neg m

theorem natAbs_cast_nonneg (m : ℤ) (hm : ¬ m < 0) : ((m.natAbs : ℕ) : ℚ) = (m : ℚ) := by
  have h2 : (m.natAbs : ℤ) = m := by omega
  calc ((m.natAbs : ℕ) : ℚ) = (((m.natAbs : ℤ)) : ℚ) := (Int.cast_natCast _).symm
  _ = ((m : ℤ) : ℚ) := by rw [h2]
  _ = (m : ℚ) := rfl

theorem stodParse_decStr (d : Dec) : stodParse (decStr d) = .ok d.toRat := by
  obtain ⟨m, e⟩ := d
  unfold Dec.toRat
  by_cases he : e = 0
  · subst he
    have hds : decStr ⟨m, 0⟩ = intDigits m := by simp [decStr]
    rw [hds]
    unfold intDigits
    by_cases hm : m < 0
    · simp only [hm, if_true]
      have h := stodParse_digits true (natDigits m.natAbs)
        (natDigits_ne_nil _) (natDigits_all_digits _)
      simp only [if_true, List.singleton_append] at h
      rw [h]
      rw [digitsVal_natDigits]
      rw [natAbs_cast_neg m hm]
      try norm_num
    · simp only [hm, if_false]
      have h := stodParse_digits false (natDigits m.natAbs)
        (natDigits_ne_nil _) (natDigits_all_digits _)
      simp only [Bool.false_eq_true, if_false, List.nil_append] at h
      rw [h]
      rw [digitsVal_natDigits]
      rw [natAbs_cast_nonneg m hm]
      try norm_num
  · set n := m.natAbs with hn
    have hlen : (natDigits (n % 10 ^ e)).length ≤ e :=
      natDigitsAux_length_le _ _ e (Nat.mod_lt _ (by positivity)) (by omega)
    set A := natDigits (n / 10 ^ e) with hA
    set B := List.replicate (e - (natDigits (n % 10 ^ e)).length) '0' ++
      natDigits (n % 10 ^ e) with hB
    have hds : decStr ⟨m, e⟩ = (if m < 0 then ['-'] else []) ++ A ++ '.' :: B := by
      rw [decStr]
      simp only [he, if_false]
    have hAne : A ≠ [] := natDigits_ne_nil _
    have hAdig : ∀ c ∈ A, isDigitChar c = true := natDigits_all_digits _
    have hBdig : ∀ c ∈ B, isDigitChar c = true := by
      intro c hc
      rw [hB] at hc
      rcases List.mem_append.mp hc with hc | hc
      · rw [List.eq_of_mem_replicate hc]; decide
      · exact natDigits_all_digits _ c hc
    have hBlen : B.length = e := by
      rw [hB]
      simp only [List.length_append, List.length_replicate]
      omega
    have hABn : digitsVal (A ++ B) = n := by
      rw [digitsVal_append, hBlen, hA, digitsVal_natDigits, hB, digitsVal_append,
        digitsVal_replicate_zero, digitsVal_natDigits]
      simp only [zero_mul, zero_add]
      rw [Nat.mul_comm]
      exact Nat.div_add_mod n (10 ^ e)
    rw [hds]
    by_cases hm : m < 0
    · simp only [hm, if_true]
      have h := stodParse_digits_dot true A B hAne hAdig hBdig
      simp only [if_true] at h
      rw [h, hABn, hBlen, natAbs_cast_neg m hm]
      congr 1
      field_simp
    · simp only [hm, if_false]
      have h := stodParse_digits_dot false A B hAne hAdig hBdig
      simp only [Bool.false_eq_true, if_false] at h
      rw [h, hABn, hBlen, natAbs_cast_nonneg m hm]
      congr 1
      field_simp

theorem parseLoop_header (rest : List Str) :
    parseLoop (headerLines ++ rest) ⟨[], none, ['0']⟩ =
      parseLoop rest ⟨headerEnts, some entSecOpen, ['0']⟩ := rfl

theorem parseLoop_footer (acc : List DxfEntity) (cur : DxfEntity) :
    parseLoop footerLines ⟨acc, some cur, ['0']⟩ =
      .ok (((acc ++ [{ cur with layer := ['0'] }]) ++ [endsecEnt]) ++ [eofEnt]) := rfl

theorem parseLoop_lineEdge (pp : WPnt × WPnt) (rest : List Str)
    (acc : List DxfEntity) (cur : DxfEntity) :
    parseLoop (shapeLines (lineEdgeShape pp) ++ rest) ⟨acc, some cur, ['0']⟩ =
      parseLoop rest ⟨acc ++ [{ cur with layer := ['0'] }], some (lineEntOpen pp), ['0']⟩ := rfl

theorem parseLoop_circleEdge (cr : (WPnt × Dec) × WPnt × WPnt) (rest : List Str)
    (acc : List DxfEntity) (cur : DxfEntity) :
    parseLoop (shapeLines (circleEdgeShape cr) ++ rest) ⟨acc, some cur, ['0']⟩ =
      parseLoop rest ⟨acc ++ [{ cur with layer := ['0'] }], some (circleEntOpen cr), ['0']⟩ := rfl

theorem lineEntOpen_close (pp : WPnt × WPnt) :
    ({ lineEntOpen pp with layer := ['0'] } : DxfEntity) = lineEntC pp := by
  simp [lineEntOpen, lineEntC, trim_decStr]

theorem circleEntOpen_close (cr : (WPnt × Dec) × WPnt × WPnt) :
    ({ circleEntOpen cr with layer := ['0'] } : DxfEntity) = circleEntC cr := by
  simp [circleEntOpen, circleEntC, trim_decStr]

/-- The writer's shape traversal over a list of shapes, as lines. -/
theorem convertToDxfLines_eq (shapes : List TopoShape) :
    convertToDxfLines shapes =
      headerLines ++ (shapes.foldr (fun s acc => shapeLines s ++ acc) [] ++ footerLines) := by
  simp [convertToDxfLines, List.append_assoc]

theorem parseLoop_lineEdges (pps : List (WPnt × WPnt)) :
    ∀ (acc : List DxfEntity) (cur : DxfEntity),
      parseLoop (((pps.map lineEdgeShape).foldr (fun s a => shapeLines s ++ a) []) ++ footerLines)
          ⟨acc, some cur, ['0']⟩ =
        .ok (acc ++ [{ cur with layer := ['0'] }] ++ pps.map lineEntC ++ [endsecEnt, eofEnt]) := by
  induction pps with
  | nil =>
    intro acc cur
    simp only [List.map_nil, List.foldr_nil, List.nil_append]
    rw [parseLoop_footer]
    simp [List.append_assoc]
  | cons pp rest ih =>
    intro acc cur
    simp only [List.map_cons, List.foldr_cons, List.append_assoc]
    rw [parseLoop_lineEdge]
    rw [ih]
    rw [lineEntOpen_close]
    simp [List.append_assoc]

theorem parseLoop_circleEdges (crs : List ((WPnt × Dec) × WPnt × WPnt)) :
    ∀ (acc : List DxfEntity) (cur : DxfEntity),
      parseLoop (((crs.map circleEdgeShape).foldr (fun s a => shapeLines s ++ a) []) ++ footerLines)
          ⟨acc, some cur, ['0']⟩ =
        .ok (acc ++ [{ cur with layer := ['0'] }] ++ crs.map circleEntC ++ [endsecEnt, eofEnt]) := by
  induction crs with
  | nil =>
    intro acc cur
    simp only [List.map_nil, List.foldr_nil, List.nil_append]
    rw [parseLoop_footer]
    simp [List.append_assoc]
  | cons cr rest ih =>
    intro acc cur
    simp only [List.map_cons, List.foldr_cons, List.append_assoc]
    rw [parseLoop_circleEdge]
    rw [ih]
    rw [circleEntOpen_close]
    simp [List.append_assoc]

/-! Line splitting inverse -/

theorem splitNlAux_no_nl (l : Str) (hl : ∀ c ∈ l, c ≠ '\n') :
    ∀ (cs acc : Str), splitNlAux (l ++ cs) acc = splitNlAux cs (l.reverse ++ acc) := by
  induction l with
  | nil => intro cs acc; simp
  | cons c rest ih =>
    intro cs acc
    have hc : c ≠ '\n' := hl c (by simp)
    rw [List.cons_append, splitNlAux, if_neg hc]
    rw [ih (fun d hd => hl d (by simp [hd])) cs (c :: acc)]
    simp

theorem splitNlAux_joinNl (ls : List Str) (h : ∀ l ∈ ls, ∀ c ∈ l, c ≠ '\n') :
    splitNlAux (joinNl ls) [] = ls ++ [[]] := by
  induction ls with
  | nil => rfl
  | cons l rest ih =>
    have hstep : joinNl (l :: rest) = l ++ '\n' :: joinNl rest := rfl
    rw [hstep]
    rw [splitNlAux_no_nl l (h l (by simp)) ('\n' :: joinNl rest) []]
    simp only [splitNlAux, if_pos rfl]
    rw [ih (fun d hd c hc => h d (by simp [hd]) c hc)]
    simp

theorem getLines_joinNl (ls : List Str) (h : ∀ l ∈ ls, ∀ c ∈ l, c ≠ '\n') :
    getLines (joinNl ls) = ls := by
  unfold getLines
  rw [splitNlAux_joinNl ls h]
  rw [List.getLast?_concat]
  simp [List.dropLast_concat]

theorem shapeLines_lineEdge (pp : WPnt × WPnt) :
    shapeLines (lineEdgeShape pp) = lineEdgeLines pp := rfl

theorem shapeLines_circleEdge (cr : (WPnt × Dec) × WPnt × WPnt) :
    shapeLines (circleEdgeShape cr) = circleEdgeLines cr := rfl

theorem headerLines_no_nl : ∀ l ∈ headerLines, ∀ c ∈ l, c ≠ '\n' := by decide

theorem footerLines_no_nl : ∀ l ∈ footerLines, ∀ c ∈ l, c ≠ '\n' := by decide

theorem lineEdgeLines_no_nl (pp : WPnt × WPnt) :
    ∀ l ∈ lineEdgeLines pp, ∀ c ∈ l, c ≠ '\n' := by
  intro l hl
  simp only [lineEdgeLines, List.mem_cons, List.not_mem_nil, or_false] at hl
  rcases hl with rfl | rfl | rfl | rfl | rfl | rfl | rfl | rfl | rfl | rfl | rfl | rfl | rfl | rfl | rfl | rfl
    <;> first
      | decide
      | exact decStr_no_newline _

theorem circleEdgeLines_no_nl (cr : (WPnt × Dec) × WPnt × WPnt) :
    ∀ l ∈ circleEdgeLines cr, ∀ c ∈ l, c ≠ '\n' := by
  intro l hl
  simp only [circleEdgeLines, List.mem_cons, List.not_mem_nil, or_false] at hl
  rcases hl with rfl | rfl | rfl | rfl | rfl | rfl | rfl | rfl | rfl | rfl | rfl | rfl
    <;> first
      | decide
      | exact decStr_no_newline _

theorem mem_foldr_shapeLines {shapes : List TopoShape} {l : Str}
    (h : l ∈ shapes.foldr (fun s a => shapeLines s ++ a) []) :
    ∃ s ∈ shapes, l ∈ shapeLines s := by
  induction shapes with
  | nil => simp at h
  | cons s rest ih =>
    simp only [List.foldr_cons, List.mem_append] at h
    rcases h with h | h
    · exact ⟨s, by simp, h⟩
    · obtain ⟨s2, hs2, hl2⟩ := ih h
      exact ⟨s2, by simp [hs2], hl2⟩

theorem convertToDxfLines_no_nl (shapes : List TopoShape)
    (h : ∀ s ∈ shapes, ∀ l ∈ shapeLines s, ∀ c ∈ l, c ≠ '\n') :
    ∀ l ∈ convertToDxfLines shapes, ∀ c ∈ l, c ≠ '\n' := by
  intro l hl
  simp only [convertToDxfLines, List.mem_append] at hl
  rcases hl with (hl | hl) | hl
  · exact headerLines_no_nl l hl
  · obtain ⟨s, hs, hl2⟩ := mem_foldr_shapeLines hl
    exact h s hs l hl2
  · exact footerLines_no_nl l hl

theorem parseDxf_convertToDxf (shapes : List TopoShape)
    (h : ∀ s ∈ shapes, ∀ l ∈ shapeLines s, ∀ c ∈ l, c ≠ '\n') :
    parseDxfEntities (convertToDxf shapes) =
      parseLoop (convertToDxfLines shapes) ⟨[], none, ['0']⟩ := by
  unfold parseDxfEntities convertToDxf
  rw [getLines_joinNl _ (convertToDxfLines_no_nl shapes h)]

theorem filter_map_true {α : Type} (f : α → DxfEntity) (p : DxfEntity → Bool)
    (l : List α) (h : ∀ x, p (f x) = true) :
    (l.map f).filter p = l.map f := by
  induction l with
  | nil => rfl
  | cons x rest ih => simp [List.filter_cons, h x, ih]

theorem createLine_lineEntC (pp : WPnt × WPnt)
    (hz1 : pp.1.z.toRat = 0) (hz2 : pp.2.z.toRat = 0) :
    createLineFromDxf (lineEntC pp) =
      .ok (some (.lineEdge (wpntToQ pp.1) (wpntToQ pp.2))) := by
  have h10 : gcFind (lineEntC pp).groupCodes 10 = some (decStr pp.1.x) := rfl
  have h20 : gcFind (lineEntC pp).groupCodes 20 = some (decStr pp.1.y) := rfl
  have h11 : gcFind (lineEntC pp).groupCodes 11 = some (decStr pp.2.x) := rfl
  have h21 : gcFind (lineEntC pp).groupCodes 21 = some (decStr pp.2.y) := rfl
  rw [createLineFromDxf, h10, h20, h11, h21]
  simp only [stodParse_decStr, Bind.bind, Except.bind, wpntToQ]
  rw [hz1, hz2]

theorem createCircle_circleEntC (cr : (WPnt × Dec) × WPnt × WPnt)
    (hz : cr.1.1.z.toRat = 0) :
    createCircleFromDxf (circleEntC cr) =
      .ok (some (.circleEdge (wpntToQ cr.1.1) cr.1.2.toRat)) := by
  have h10 : gcFind (circleEntC cr).groupCodes 10 = some (decStr cr.1.1.x) := rfl
  have h20 : gcFind (circleEntC cr).groupCodes 20 = some (decStr cr.1.1.y) := rfl
  have h40 : gcFind (circleEntC cr).groupCodes 40 = some (decStr cr.1.2) := rfl
  rw [createCircleFromDxf, h10, h20, h40]
  simp only [stodParse_decStr, Bind.bind, Except.bind, wpntToQ]
  rw [hz]

/-- C2 amended: for every shape set consisting only of straight-line edges
lying in the z = 0 plane, and every shape set consisting only of full-circle
edges centered in the z = 0 plane, writing with `convertToDxf` and re-parsing
with the interchange parser yields LINE (resp. CIRCLE) records whose
reconstructed endpoints (resp. center and radius) are exactly those of the
inputs. -/
theorem c2_roundtrip :
    (∀ pps : List (WPnt × WPnt),
       (∀ pp ∈ pps, pp.1.z.toRat = 0 ∧ pp.2.z.toRat = 0) →
       ∃ es, parseDxfEntities (convertToDxf (pps.map lineEdgeShape)) = .ok es ∧
         (es.filter (fun e => e.type = "LINE".data)).map createLineFromDxf =
           pps.map (fun pp => .ok (some (.lineEdge (wpntToQ pp.1) (wpntToQ pp.2))))) ∧
    (∀ crs : List ((WPnt × Dec) × WPnt × WPnt),
       (∀ cr ∈ crs, cr.1.1.z.toRat = 0) →
       ∃ es, parseDxfEntities (convertToDxf (crs.map circleEdgeShape)) = .ok es ∧
         (es.filter (fun e => e.type = "CIRCLE".data)).map createCircleFromDxf =
           crs.map (fun cr => .ok (some (.circleEdge (wpntToQ cr.1.1) cr.1.2.toRat)))) := by
  constructor
  · intro pps hz
    rw [parseDxf_convertToDxf _
      (fun s hs => by
        obtain ⟨pp, _, rfl⟩ := List.mem_map.mp hs
        rw [shapeLines_lineEdge]
        exact lineEdgeLines_no_nl pp)]
    rw [convertToDxfLines_eq, parseLoop_header, parseLoop_lineEdges]
    refine ⟨_, rfl, ?_⟩
    have hfilter :
        ((headerEnts ++ [{ entSecOpen with layer := ['0'] }] ++ pps.map lineEntC ++
            [endsecEnt, eofEnt]).filter (fun e => e.type = "LINE".data)) =
          pps.map lineEntC := by
      simp only [List.filter_append]
      rw [filter_map_true lineEntC (fun e => e.type = "LINE".data) pps (fun pp => by rfl)]
      simp [headerEnts, endsecEnt, eofEnt, entSecOpen, List.filter]
    rw [hfilter, List.map_map]
    apply List.map_congr_left
    intro pp hpp
    exact createLine_lineEntC pp (hz pp hpp).1 (hz pp hpp).2
  · intro crs hz
    rw [parseDxf_convertToDxf _
      (fun s hs => by
        obtain ⟨cr, _, rfl⟩ := List.mem_map.mp hs
        rw [shapeLines_circleEdge]
        exact circleEdgeLines_no_nl cr)]
    rw [convertToDxfLines_eq, parseLoop_header, parseLoop_circleEdges]
    refine ⟨_, rfl, ?_⟩
    have hfilter :
        ((headerEnts ++ [{ entSecOpen with layer := ['0'] }] ++ crs.map circleEntC ++
            [endsecEnt, eofEnt]).filter (fun e => e.type = "CIRCLE".data)) =
          crs.map circleEntC := by
      simp only [List.filter_append]
      rw [filter_map_true circleEntC (fun e => e.type = "CIRCLE".data) crs (fun cr => by rfl)]
      simp [headerEnts, endsecEnt, eofEnt, entSecOpen, List.filter]
    rw [hfilter, List.map_map]
    apply List.map_congr_left
    intro cr hcr
    exact createCircle_circleEntC cr (hz cr hcr)

theorem createLine_lineEntC_gen (pp : WPnt × WPnt) :
    createLineFromDxf (lineEntC pp) =
      .ok (some (.lineEdge ⟨pp.1.x.toRat, pp.1.y.toRat, 0⟩
        ⟨pp.2.x.toRat, pp.2.y.toRat, 0⟩)) := by
  have h10 : gcFind (lineEntC pp).groupCodes 10 = some (decStr pp.1.x) := rfl
  have h20 : gcFind (lineEntC pp).groupCodes 20 = some (decStr pp.1.y) := rfl
  have h11 : gcFind (lineEntC pp).groupCodes 11 = some (decStr pp.2.x) := rfl
  have h21 : gcFind (lineEntC pp).groupCodes 21 = some (decStr pp.2.y) := rfl
  rw [createLineFromDxf, h10, h20, h11, h21]
  simp only [stodParse_decStr, Bind.bind, Except.bind]

/-- C2 counterexample: a single straight-line edge from (0,0,1) to (1,0,1)
round-trips to a LINE record whose reconstructed endpoints lie at z = 0 —
the writer emits the z coordinates but the reader discards them, so the
reconstructed endpoints differ from the input's by 1 in z, beyond any
tolerance. -/
theorem c2_z_counterexample :
    (parseDxfEntities (convertToDxf [lineEdgeShape ppZ])).map
        (fun es => (es.filter (fun e => e.type = "LINE".data)).map createLineFromDxf) =
      .ok [.ok (some (.lineEdge ⟨0, 0, 0⟩ ⟨1, 0, 0⟩))] ∧
    wpntToQ ppZ.1 = ⟨0, 0, 1⟩ ∧ wpntToQ ppZ.2 = ⟨1, 0, 1⟩ ∧
    (RShape.lineEdge ⟨0, 0, 0⟩ ⟨1, 0, 0⟩ ≠
      RShape.lineEdge (wpntToQ ppZ.1) (wpntToQ ppZ.2)) := by
  refine ⟨?_, ?_, ?_, ?_⟩
  · rw [show ([lineEdgeShape ppZ] : List TopoShape) = [ppZ].map lineEdgeShape from rfl]
    rw [parseDxf_convertToDxf _
      (fun s hs => by
        obtain ⟨pp, _, rfl⟩ := List.mem_map.mp hs
        rw [shapeLines_lineEdge]
        exact lineEdgeLines_no_nl pp)]
    rw [convertToDxfLines_eq, parseLoop_header, parseLoop_lineEdges]
    rw [show ({ entSecOpen with layer := ['0'] } : DxfEntity) = entSecC from rfl]
    rw [show List.map lineEntC [ppZ] = [lineEntC ppZ] from rfl]
    have hfilter : (headerEnts ++ [entSecC] ++ [lineEntC ppZ] ++ [endsecEnt, eofEnt]).filter
        (fun e => e.type = "LINE".data) = [lineEntC ppZ] := by
      simp [headerEnts, entSecC, endsecEnt, eofEnt, lineEntC, List.filter]
    simp only [Except.map, hfilter, List.map_cons, List.map_nil]
    rw [createLine_lineEntC_gen]
    have hx1 : (ppZ.1.x).toRat = 0 := by norm_num [ppZ, Dec.toRat]
    have hy1 : (ppZ.1.y).toRat = 0 := by norm_num [ppZ, Dec.toRat]
    have hx2 : (ppZ.2.x).toRat = 1 := by norm_num [ppZ, Dec.toRat]
    have hy2 : (ppZ.2.y).toRat = 0 := by norm_num [ppZ, Dec.toRat]
    rw [hx1, hy1, hx2, hy2]
  · norm_num [wpntToQ, ppZ, Dec.toRat, QPnt.mk.injEq]
  · norm_num [wpntToQ, ppZ, Dec.toRat, QPnt.mk.injEq]
  · intro h
    simp only [wpntToQ, RShape.lineEdge.injEq, QPnt.mk.injEq] at h
    have hz : (0 : ℚ) = ppZ.1.z.toRat := h.1.2.2
    rw [show (ppZ.1.z).toRat = 1 from by norm_num [ppZ, Dec.toRat]] at hz
    norm_num at hz

/-- Witness for C2's amended statement on a one-line-edge shape set. -/
theorem c2_roundtrip_witness :
    (∀ pp ∈ [pp0], pp.1.z.toRat = 0 ∧ pp.2.z.toRat = 0) ∧
    (∃ es, parseDxfEntities (convertToDxf ([pp0].map lineEdgeShape)) = .ok es ∧
      (es.filter (fun e => e.type = "LINE".data)).map createLineFromDxf =
        [pp0].map (fun pp => .ok (some (.lineEdge (wpntToQ pp.1) (wpntToQ pp.2))))) := by
  have h : ∀ pp ∈ [pp0], pp.1.z.toRat = 0 ∧ pp.2.z.toRat = 0 := by
    intro pp hpp
    simp only [List.mem_singleton] at hpp
    subst hpp
    constructor <;> norm_num [pp0, Dec.toRat]
  exact ⟨h, c2_roundtrip.1 [pp0] h⟩

theorem natDigits_no_trim (n : ℕ) : trim (natDigits n) = natDigits n :=
  trim_eq_self _ (fun c hc => (digit_char_facts c (natDigits_all_digits n c hc)).2.1)

theorem lwEntMid_close (n : ℕ) (p : WPnt) :
    ({ lwEntMid n p with layer := ['0'] } : DxfEntity) = lwEntC n p := by
  simp [lwEntMid, lwEntC, trim_decStr, natDigits_no_trim]

-- writer shape of a wire of line edges

theorem wirePoints_lines (pps : List (WPnt × WPnt)) :
    wirePoints (pps.map fun pp => ⟨some .lineC, pp.1, pp.2⟩) = pps.map (fun pp => pp.1) := by
  induction pps with
  | nil => rfl
  | cons pp rest ih => simp [wirePoints, List.filterMap_cons] at ih ⊢; exact ih

theorem edgeFold_lines (pps : List (WPnt × WPnt)) :
    ((pps.map fun pp => (⟨some .lineC, pp.1, pp.2⟩ : REdge)).foldr
        (fun e acc => edgeRec e ++ acc) []) =
      pps.foldr (fun pp a => lineEdgeLines pp ++ a) [] := by
  induction pps with
  | nil => rfl
  | cons pp rest ih =>
    simp only [List.map_cons, List.foldr_cons, ih]
    rfl

theorem shapeLines_wireOf (pps : List (WPnt × WPnt)) (hne : pps ≠ []) :
    shapeLines (wireOf pps) =
      (pps.foldr (fun pp a => lineEdgeLines pp ++ a) []) ++
        (lwHeadLines pps.length ++ vertexLines (pps.map (fun pp => pp.1))) := by
  unfold shapeLines wireOf
  have hedges : shapeEdges (.wireS (pps.map fun pp => ⟨some .lineC, pp.1, pp.2⟩)) =
      pps.map fun pp => ⟨some .lineC, pp.1, pp.2⟩ := rfl
  rw [hedges]
  rw [edgeFold_lines]
  have hwire : wireRec (.wireS (pps.map fun pp => ⟨some .lineC, pp.1, pp.2⟩)) =
      lwHeadLines pps.length ++ vertexLines (pps.map (fun pp => pp.1)) := by
    rw [wireRec]
    rw [wirePoints_lines]
    have hne2 : pps.map (fun pp => pp.1) ≠ [] := by
      intro h
      exact hne (List.map_eq_nil_iff.mp h)
    simp only [hne2, if_false]
    rw [List.length_map]
    rfl
  rw [hwire]
  have hface : faceRec (.wireS (pps.map fun pp => ⟨some .lineC, pp.1, pp.2⟩)) = [] := rfl
  rw [hface, List.append_nil]

theorem parseLoop_lineRec (pp : WPnt × WPnt) (rest : List Str)
    (acc : List DxfEntity) (cur : DxfEntity) :
    parseLoop (lineEdgeLines pp ++ rest) ⟨acc, some cur, ['0']⟩ =
      parseLoop rest ⟨acc ++ [{ cur with layer := ['0'] }], some (lineEntOpen pp), ['0']⟩ := rfl

theorem parseLoop_edgePass (pps0 : List (WPnt × WPnt)) (pl : WPnt × WPnt) :
    ∀ (rest : List Str) (acc : List DxfEntity) (cur : DxfEntity),
      parseLoop (((pps0 ++ [pl]).foldr (fun pp a => lineEdgeLines pp ++ a) []) ++ rest)
          ⟨acc, some cur, ['0']⟩ =
        parseLoop rest ⟨acc ++ [{ cur with layer := ['0'] }] ++ pps0.map lineEntC,
          some (lineEntOpen pl), ['0']⟩ := by
  induction pps0 with
  | nil =>
    intro rest acc cur
    simp only [List.nil_append, List.foldr_cons, List.foldr_nil, List.append_nil,
      List.map_nil]
    rw [parseLoop_lineRec]
  | cons pp pps0 ih =>
    intro rest acc cur
    simp only [List.cons_append, List.foldr_cons, List.append_assoc, List.map_cons]
    rw [parseLoop_lineRec, ih]
    rw [lineEntOpen_close]
    simp [List.append_assoc]

theorem parseLoop_lwHead (n : ℕ) (rest : List Str)
    (acc : List DxfEntity) (cur : DxfEntity) :
    parseLoop (lwHeadLines n ++ rest) ⟨acc, some cur, ['0']⟩ =
      parseLoop rest ⟨acc ++ [{ cur with layer := ['0'] }], some (lwEnt0 n), ['0']⟩ := rfl

theorem parseLoop_vertexFirst (p : WPnt) (rest : List Str)
    (acc : List DxfEntity) (n : ℕ) :
    parseLoop (([" 10".data, decStr p.x, " 20".data, decStr p.y, " 30".data, decStr p.z])
        ++ rest) ⟨acc, some (lwEnt0 n), ['0']⟩ =
      parseLoop rest ⟨acc, some (lwEntMid n p), ['0']⟩ := rfl

theorem parseLoop_vertexNext (p q : WPnt) (rest : List Str)
    (acc : List DxfEntity) (n : ℕ) :
    parseLoop (([" 10".data, decStr p.x, " 20".data, decStr p.y, " 30".data, decStr p.z])
        ++ rest) ⟨acc, some (lwEntMid n q), ['0']⟩ =
      parseLoop rest ⟨acc, some (lwEntMid n p), ['0']⟩ := rfl

theorem parseLoop_vertexRest (pts : List WPnt) :
    ∀ (q : WPnt) (rest : List Str) (acc : List DxfEntity) (n : ℕ),
      parseLoop (vertexLines pts ++ rest) ⟨acc, some (lwEntMid n q), ['0']⟩ =
        parseLoop rest ⟨acc, some (lwEntMid n (pts.getLastD q)), ['0']⟩ := by
  induction pts with
  | nil => intro q rest acc n; simp [vertexLines]
  | cons p pts ih =>
    intro q rest acc n
    have hv : vertexLines (p :: pts) =
        [" 10".data, decStr p.x, " 20".data, decStr p.y, " 30".data, decStr p.z] ++
          vertexLines pts := rfl
    rw [hv, List.append_assoc, parseLoop_vertexNext, ih]
    congr 2
    cases pts <;> simp [List.getLastD]

theorem parseLoop_vertexAll (p : WPnt) (pts : List WPnt) (rest : List Str)
    (acc : List DxfEntity) (n : ℕ) :
    parseLoop (vertexLines (p :: pts) ++ rest) ⟨acc, some (lwEnt0 n), ['0']⟩ =
      parseLoop rest ⟨acc, some (lwEntMid n (pts.getLastD p)), ['0']⟩ := by
  have hv : vertexLines (p :: pts) =
      [" 10".data, decStr p.x, " 20".data, decStr p.y, " 30".data, decStr p.z] ++
        vertexLines pts := rfl
  rw [hv, List.append_assoc, parseLoop_vertexFirst, parseLoop_vertexRest]

theorem entSec_close : ({ entSecOpen with layer := ['0'] } : DxfEntity) = entSecC := rfl

theorem natDigits_no_nl (n : ℕ) : ∀ c ∈ natDigits n, c ≠ '\n' :=
  fun c hc => (digit_char_facts c (natDigits_all_digits n c hc)).2.2.2.2.2

theorem lwHeadLines_no_nl (n : ℕ) : ∀ l ∈ lwHeadLines n, ∀ c ∈ l, c ≠ '\n' := by
  intro l hl
  simp only [lwHeadLines, List.mem_cons, List.not_mem_nil, or_false] at hl
  rcases hl with rfl | rfl | rfl | rfl | rfl | rfl | rfl | rfl
    <;> first
      | decide
      | exact natDigits_no_nl n

theorem vertexLines_no_nl (pts : List WPnt) :
    ∀ l ∈ vertexLines pts, ∀ c ∈ l, c ≠ '\n' := by
  induction pts with
  | nil => intro l hl; simp [vertexLines] at hl
  | cons p pts ih =>
    intro l hl
    have hv : vertexLines (p :: pts) =
        [" 10".data, decStr p.x, " 20".data, decStr p.y, " 30".data, decStr p.z] ++
          vertexLines pts := rfl
    rw [hv] at hl
    simp only [List.mem_append, List.mem_cons, List.not_mem_nil, or_false] at hl
    rcases hl with (rfl | rfl | rfl | rfl | rfl | rfl) | hl
    · decide
    · exact decStr_no_newline _
    · decide
    · exact decStr_no_newline _
    · decide
    · exact decStr_no_newline _
    · exact ih l hl

theorem mem_foldr_lineEdgeLines {pps : List (WPnt × WPnt)} {l : Str}
    (h : l ∈ pps.foldr (fun pp a => lineEdgeLines pp ++ a) []) :
    ∃ pp ∈ pps, l ∈ lineEdgeLines pp := by
  induction pps with
  | nil => simp at h
  | cons pp rest ih =>
    simp only [List.foldr_cons, List.mem_append] at h
    rcases h with h | h
    · exact ⟨pp, by simp, h⟩
    · obtain ⟨pp2, hp2, hl2⟩ := ih h
      exact ⟨pp2, by simp [hp2], hl2⟩

theorem wireOf_lines_no_nl (pps : List (WPnt × WPnt)) (hne : pps ≠ []) :
    ∀ l ∈ shapeLines (wireOf pps), ∀ c ∈ l, c ≠ '\n' := by
  intro l hl
  rw [shapeLines_wireOf pps hne] at hl
  simp only [List.mem_append] at hl
  rcases hl with hl | hl | hl
  · obtain ⟨pp, _, hl2⟩ := mem_foldr_lineEdgeLines hl
    exact lineEdgeLines_no_nl pp l hl2
  · exact lwHeadLines_no_nl pps.length l hl
  · exact vertexLines_no_nl _ l hl

theorem ckv10_header (rest : List Str) :
    codeKValues 10 (headerLines ++ rest) = codeKValues 10 rest := rfl

theorem ckv10_lineRec (pp : WPnt × WPnt) (rest : List Str) :
    codeKValues 10 (lineEdgeLines pp ++ rest) =
      trim (decStr pp.1.x) :: codeKValues 10 rest := rfl

theorem ckv10_lwHead (n : ℕ) (rest : List Str) :
    codeKValues 10 (lwHeadLines n ++ rest) = codeKValues 10 rest := rfl

theorem ckv10_vertex (p : WPnt) (rest : List Str) :
    codeKValues 10 ([" 10".data, decStr p.x, " 20".data, decStr p.y,
        " 30".data, decStr p.z] ++ rest) =
      trim (decStr p.x) :: codeKValues 10 rest := rfl

theorem ckv10_footer : codeKValues 10 footerLines = [] := rfl

theorem ckv10_edgePass (pps : List (WPnt × WPnt)) (rest : List Str) :
    codeKValues 10 ((pps.foldr (fun pp a => lineEdgeLines pp ++ a) []) ++ rest) =
      pps.map (fun pp => trim (decStr pp.1.x)) ++ codeKValues 10 rest := by
  induction pps with
  | nil => simp
  | cons pp pps ih =>
    simp only [List.foldr_cons, List.append_assoc, List.map_cons]
    rw [ckv10_lineRec, ih]
    simp

theorem ckv10_vertexLines (pts : List WPnt) (rest : List Str) :
    codeKValues 10 (vertexLines pts ++ rest) =
      pts.map (fun p => trim (decStr p.x)) ++ codeKValues 10 rest := by
  induction pts with
  | nil => simp [vertexLines]
  | cons p pts ih =>
    have hv : vertexLines (p :: pts) =
        [" 10".data, decStr p.x, " 20".data, decStr p.y, " 30".data, decStr p.z] ++
          vertexLines pts := rfl
    rw [hv, List.append_assoc, ckv10_vertex, ih]
    simp

theorem ckv10_wire_output (pps : List (WPnt × WPnt)) (hne : pps ≠ []) :
    codeKValues 10 (convertToDxfLines [wireOf pps]) =
      pps.map (fun pp => decStr pp.1.x) ++ pps.map (fun pp => decStr pp.1.x) := by
  have hlines : convertToDxfLines [wireOf pps] =
      headerLines ++ (shapeLines (wireOf pps) ++ footerLines) := by
    simp [convertToDxfLines, List.append_assoc]
  rw [hlines, shapeLines_wireOf pps hne]
  rw [ckv10_header]
  rw [List.append_assoc, List.append_assoc]
  rw [ckv10_edgePass]
  rw [ckv10_lwHead, ckv10_vertexLines, ckv10_footer]
  simp only [List.map_map, List.append_nil]
  congr 1
  · exact List.map_congr_left (fun pp _ => by rw [trim_decStr])
  · exact List.map_congr_left (fun pp _ => by simp [Function.comp, trim_decStr])

theorem parseLoop_vertexNonempty (pts : List WPnt) (hne : pts ≠ []) (rest : List Str)
    (acc : List DxfEntity) (n : ℕ) :
    parseLoop (vertexLines pts ++ rest) ⟨acc, some (lwEnt0 n), ['0']⟩ =
      parseLoop rest ⟨acc, some (lwEntMid n (pts.getLastD originPnt)), ['0']⟩ := by
  cases pts with
  | nil => exact absurd rfl hne
  | cons p pts =>
    rw [parseLoop_vertexAll]
    congr 2
    rw [List.getLastD_cons]

theorem gcFind_lwEntC_90 (n : ℕ) (p : WPnt) :
    gcFind (lwEntC n p).groupCodes 90 = some (natDigits n) := rfl

theorem gcFind_lwEntC_70 (n : ℕ) (p : WPnt) :
    gcFind (lwEntC n p).groupCodes 70 = some ['1'] := rfl


/-- C9 counterexample: on a concrete two-edge wire the emitted LWPOLYLINE record carries
code 90 = 2 and code 70 = 1; stoi of that flag is 1 and 1 AND 1 is nonzero, so the flag is
the closed flag, refuting the claim's open flag (and the record lists two vertices for the
three traversed ones). -/
theorem c9_open_flag_counterexample :
    (parseDxfEntities (convertToDxf [wireOf c9WirePps])).map
        (fun es => (es.filter (fun e => e.type = "LWPOLYLINE".data)).map
          (fun e => (gcFind e.groupCodes 90, gcFind e.groupCodes 70))) =
      .ok [(some ['2'], some ['1'])] ∧
    stoiParse ['1'] = .ok 1 ∧ Int.land 1 1 ≠ 0 :=
  ⟨by rfl, by decide, by decide⟩


theorem arcEntOpen_close (c : WPnt) (r a b : Dec) :
    ({ arcEntOpen c r a b with layer := ['0'] } : DxfEntity) = arcEntC c r a b := by
  simp [arcEntOpen, arcEntC, trim_decStr]

theorem edgeEntOpen_close (e : REdge) :
    (edgeEntOpen e).map (fun ent => { ent with layer := ['0'] }) = edgeEnt e := by
  obtain ⟨c, pF, pL⟩ := e
  cases c with
  | none => rfl
  | some rc =>
    cases rc with
    | lineC => simp [edgeEntOpen, edgeEnt, lineEntOpen_close]
    | circleC cc r => simp [edgeEntOpen, edgeEnt, circleEntOpen_close]
    | trimmedC basis a b =>
      cases basis with
      | none => rfl
      | some cr =>
        obtain ⟨cc, r⟩ := cr
        simp [edgeEntOpen, edgeEnt, arcEntOpen_close]
    | otherC => rfl

theorem shapeLines_wireS (edges : List REdge) (hne : wirePoints edges ≠ []) :
    shapeLines (.wireS edges) =
      (edges.foldr (fun e a => edgeRec e ++ a) []) ++
        (lwHeadLines (wirePoints edges).length ++ vertexLines (wirePoints edges)) := by
  unfold shapeLines
  have hedges : shapeEdges (.wireS edges) = edges := rfl
  rw [hedges]
  have hwire : wireRec (.wireS edges) =
      if wirePoints edges = [] then []
      else lwHeadLines (wirePoints edges).length ++ vertexLines (wirePoints edges) := rfl
  rw [hwire, if_neg hne]
  have hface : faceRec (.wireS edges) = [] := rfl
  rw [hface, List.append_nil]

theorem parseLoop_edgeRec (e : REdge) (rest : List Str)
    (acc : List DxfEntity) (cur : DxfEntity) :
    parseLoop (edgeRec e ++ rest) ⟨acc, some cur, ['0']⟩ =
      match edgeEntOpen e with
      | some ent => parseLoop rest ⟨acc ++ [{ cur with layer := ['0'] }], some ent, ['0']⟩
      | none => parseLoop rest ⟨acc, some cur, ['0']⟩ := by
  obtain ⟨c, pF, pL⟩ := e
  cases c with
  | none => rfl
  | some rc =>
    cases rc with
    | lineC => rfl
    | circleC cc r => rfl
    | trimmedC basis a b =>
      cases basis with
      | none => rfl
      | some cr =>
        obtain ⟨cc, r⟩ := cr
        rfl
    | otherC => rfl

theorem parseLoop_edgeFold (edges : List REdge) :
    ∀ (rest : List Str) (acc : List DxfEntity) (cur : DxfEntity),
      parseLoop ((edges.foldr (fun e a => edgeRec e ++ a) []) ++ rest) ⟨acc, some cur, ['0']⟩ =
        parseLoop rest ⟨(edgePassState edges acc cur).1,
          some (edgePassState edges acc cur).2, ['0']⟩ := by
  induction edges with
  | nil => intro rest acc cur; rfl
  | cons e edges ih =>
    intro rest acc cur
    simp only [List.foldr_cons, List.append_assoc]
    rw [parseLoop_edgeRec]
    rcases ho : edgeEntOpen e with _ | ent
    · simp only [ho]
      rw [ih]
      have hstep : edgePassState (e :: edges) acc cur = edgePassState edges acc cur := by
        simp [edgePassState, ho]
      rw [hstep]
    · simp only [ho]
      rw [ih]
      have hstep : edgePassState (e :: edges) acc cur =
          edgePassState edges (acc ++ [{ cur with layer := ['0'] }]) ent := by
        simp [edgePassState, ho]
      rw [hstep]

theorem edgePassState_spec (edges : List REdge) :
    ∀ (acc : List DxfEntity) (cur : DxfEntity),
      (edgePassState edges acc cur).1 ++
          [{ (edgePassState edges acc cur).2 with layer := ['0'] }] =
        acc ++ [{ cur with layer := ['0'] }] ++ edges.filterMap edgeEnt := by
  induction edges with
  | nil => intro acc cur; simp [edgePassState]
  | cons e edges ih =>
    intro acc cur
    rcases ho : edgeEntOpen e with _ | ent
    · have h1 : edgePassState (e :: edges) acc cur = edgePassState edges acc cur := by
        simp [edgePassState, ho]
      have h2 : edgeEnt e = none := by
        rw [← edgeEntOpen_close, ho]
        rfl
      rw [h1, ih, List.filterMap_cons, h2]
    · have h1 : edgePassState (e :: edges) acc cur =
          edgePassState edges (acc ++ [{ cur with layer := ['0'] }]) ent := by
        simp [edgePassState, ho]
      have h2 : edgeEnt e = some ({ ent with layer := ['0'] }) := by
        rw [← edgeEntOpen_close, ho]
        rfl
      rw [h1, ih, List.filterMap_cons, h2]
      simp [List.append_assoc]

theorem arcLines_no_nl (cc : WPnt) (r a b : Dec) :
    ∀ l ∈ ["  0".data, "ARC".data, "  8".data, "0".data,
        " 10".data, decStr cc.x, " 20".data, decStr cc.y, " 30".data, decStr cc.z,
        " 40".data, decStr r, " 50".data, decStr a, " 51".data, decStr b],
      ∀ c ∈ l, c ≠ '\n' := by
  intro l hl
  simp only [List.mem_cons, List.not_mem_nil, or_false] at hl
  rcases hl with rfl | rfl | rfl | rfl | rfl | rfl | rfl | rfl | rfl | rfl | rfl | rfl | rfl | rfl | rfl | rfl
    <;> first
      | decide
      | exact decStr_no_newline _

theorem edgeRec_no_nl (e : REdge) : ∀ l ∈ edgeRec e, ∀ c ∈ l, c ≠ '\n' := by
  obtain ⟨c, pF, pL⟩ := e
  cases c with
  | none => intro l hl; simp [edgeRec] at hl
  | some rc =>
    cases rc with
    | lineC =>
      have h : edgeRec ⟨some .lineC, pF, pL⟩ = lineEdgeLines (pF, pL) := rfl
      rw [h]
      exact lineEdgeLines_no_nl (pF, pL)
    | circleC cc r =>
      have h : edgeRec ⟨some (.circleC cc r), pF, pL⟩ =
          circleEdgeLines ((cc, r), pF, pL) := rfl
      rw [h]
      exact circleEdgeLines_no_nl ((cc, r), pF, pL)
    | trimmedC basis a b =>
      cases basis with
      | none => intro l hl; simp [edgeRec] at hl
      | some cr =>
        obtain ⟨cc, r⟩ := cr
        have h : edgeRec ⟨some (.trimmedC (some (cc, r)) a b), pF, pL⟩ =
            ["  0".data, "ARC".data, "  8".data, "0".data,
             " 10".data, decStr cc.x, " 20".data, decStr cc.y, " 30".data, decStr cc.z,
             " 40".data, decStr r, " 50".data, decStr a, " 51".data, decStr b] := rfl
        rw [h]
        exact arcLines_no_nl cc r a b
    | otherC => intro l hl; simp [edgeRec] at hl

theorem mem_foldr_edgeRec {edges : List REdge} {l : Str}
    (h : l ∈ edges.foldr (fun e a => edgeRec e ++ a) []) :
    ∃ e ∈ edges, l ∈ edgeRec e := by
  induction edges with
  | nil => simp at h
  | cons e rest ih =>
    simp only [List.foldr_cons, List.mem_append] at h
    rcases h with h | h
    · exact ⟨e, by simp, h⟩
    · obtain ⟨e2, he2, hl2⟩ := ih h
      exact ⟨e2, by simp [he2], hl2⟩

theorem wireS_lines_no_nl (edges : List REdge) (hne : wirePoints edges ≠ []) :
    ∀ l ∈ shapeLines (.wireS edges), ∀ c ∈ l, c ≠ '\n' := by
  intro l hl
  rw [shapeLines_wireS edges hne] at hl
  simp only [List.mem_append] at hl
  rcases hl with hl | hl | hl
  · obtain ⟨e, _, hl2⟩ := mem_foldr_edgeRec hl
    exact edgeRec_no_nl e l hl2
  · exact lwHeadLines_no_nl _ l hl
  · exact vertexLines_no_nl _ l hl

theorem filterMap_edgeEnt_line (edges : List REdge) :
    (edges.filterMap edgeEnt).filter (fun en => en.type = "LINE".data) =
      edges.filterMap lineRecOf := by
  induction edges with
  | nil => rfl
  | cons e edges ih =>
    rw [List.filterMap_cons, List.filterMap_cons]
    obtain ⟨c, pF, pL⟩ := e
    cases c with
    | none => simpa [edgeEnt, lineRecOf] using ih
    | some rc =>
      cases rc with
      | lineC => simpa [edgeEnt, lineRecOf, lineEntC, List.filter_cons] using ih
      | circleC cc r => simpa [edgeEnt, lineRecOf, circleEntC, List.filter_cons] using ih
      | trimmedC basis a b =>
        cases basis with
        | none => simpa [edgeEnt, lineRecOf] using ih
        | some cr =>
          obtain ⟨cc, r⟩ := cr
          simpa [edgeEnt, lineRecOf, arcEntC, List.filter_cons] using ih
      | otherC => simpa [edgeEnt, lineRecOf] using ih

theorem filterMap_edgeEnt_circle (edges : List REdge) :
    (edges.filterMap edgeEnt).filter (fun en => en.type = "CIRCLE".data) =
      edges.filterMap circleRecOf := by
  induction edges with
  | nil => rfl
  | cons e edges ih =>
    rw [List.filterMap_cons, List.filterMap_cons]
    obtain ⟨c, pF, pL⟩ := e
    cases c with
    | none => simpa [edgeEnt, circleRecOf] using ih
    | some rc =>
      cases rc with
      | lineC => simpa [edgeEnt, circleRecOf, lineEntC, List.filter_cons] using ih
      | circleC cc r => simpa [edgeEnt, circleRecOf, circleEntC, List.filter_cons] using ih
      | trimmedC basis a b =>
        cases basis with
        | none => simpa [edgeEnt, circleRecOf] using ih
        | some cr =>
          obtain ⟨cc, r⟩ := cr
          simpa [edgeEnt, circleRecOf, arcEntC, List.filter_cons] using ih
      | otherC => simpa [edgeEnt, circleRecOf] using ih

theorem filterMap_edgeEnt_arc (edges : List REdge) :
    (edges.filterMap edgeEnt).filter (fun en => en.type = "ARC".data) =
      edges.filterMap arcRecOf := by
  induction edges with
  | nil => rfl
  | cons e edges ih =>
    rw [List.filterMap_cons, List.filterMap_cons]
    obtain ⟨c, pF, pL⟩ := e
    cases c with
    | none => simpa [edgeEnt, arcRecOf] using ih
    | some rc =>
      cases rc with
      | lineC => simpa [edgeEnt, arcRecOf, lineEntC, List.filter_cons] using ih
      | circleC cc r => simpa [edgeEnt, arcRecOf, circleEntC, List.filter_cons] using ih
      | trimmedC basis a b =>
        cases basis with
        | none => simpa [edgeEnt, arcRecOf] using ih
        | some cr =>
          obtain ⟨cc, r⟩ := cr
          simpa [edgeEnt, arcRecOf, arcEntC, List.filter_cons] using ih
      | otherC => simpa [edgeEnt, arcRecOf] using ih

theorem filterMap_edgeEnt_lw (edges : List REdge) :
    (edges.filterMap edgeEnt).filter (fun en => en.type = "LWPOLYLINE".data) = [] := by
  induction edges with
  | nil => rfl
  | cons e edges ih =>
    rw [List.filterMap_cons]
    obtain ⟨c, pF, pL⟩ := e
    cases c with
    | none => simpa [edgeEnt] using ih
    | some rc =>
      cases rc with
      | lineC => simpa [edgeEnt, lineEntC, List.filter_cons] using ih
      | circleC cc r => simpa [edgeEnt, circleEntC, List.filter_cons] using ih
      | trimmedC basis a b =>
        cases basis with
        | none => simpa [edgeEnt] using ih
        | some cr =>
          obtain ⟨cc, r⟩ := cr
          simpa [edgeEnt, arcEntC, List.filter_cons] using ih
      | otherC => simpa [edgeEnt] using ih

theorem ckv10_edgeRec (e : REdge) (rest : List Str) :
    codeKValues 10 (edgeRec e ++ rest) = edgeCode10 e ++ codeKValues 10 rest := by
  obtain ⟨c, pF, pL⟩ := e
  cases c with
  | none => rfl
  | some rc =>
    cases rc with
    | lineC =>
      have h : codeKValues 10 (edgeRec ⟨some .lineC, pF, pL⟩ ++ rest) =
          trim (decStr pF.x) :: codeKValues 10 rest := rfl
      rw [h, trim_decStr]
      rfl
    | circleC cc r =>
      have h : codeKValues 10 (edgeRec ⟨some (.circleC cc r), pF, pL⟩ ++ rest) =
          trim (decStr cc.x) :: codeKValues 10 rest := rfl
      rw [h, trim_decStr]
      rfl
    | trimmedC basis a b =>
      cases basis with
      | none => rfl
      | some cr =>
        obtain ⟨cc, r⟩ := cr
        have h : codeKValues 10
            (edgeRec ⟨some (.trimmedC (some (cc, r)) a b), pF, pL⟩ ++ rest) =
            trim (decStr cc.x) :: codeKValues 10 rest := rfl
        rw [h, trim_decStr]
        rfl
    | otherC => rfl

theorem ckv20_edgeRec (e : REdge) (rest : List Str) :
    codeKValues 20 (edgeRec e ++ rest) = edgeCode20 e ++ codeKValues 20 rest := by
  obtain ⟨c, pF, pL⟩ := e
  cases c with
  | none => rfl
  | some rc =>
    cases rc with
    | lineC =>
      have h : codeKValues 20 (edgeRec ⟨some .lineC, pF, pL⟩ ++ rest) =
          trim (decStr pF.y) :: codeKValues 20 rest := rfl
      rw [h, trim_decStr]
      rfl
    | circleC cc r =>
      have h : codeKValues 20 (edgeRec ⟨some (.circleC cc r), pF, pL⟩ ++ rest) =
          trim (decStr cc.y) :: codeKValues 20 rest := rfl
      rw [h, trim_decStr]
      rfl
    | trimmedC basis a b =>
      cases basis with
      | none => rfl
      | some cr =>
        obtain ⟨cc, r⟩ := cr
        have h : codeKValues 20
            (edgeRec ⟨some (.trimmedC (some (cc, r)) a b), pF, pL⟩ ++ rest) =
            trim (decStr cc.y) :: codeKValues 20 rest := rfl
        rw [h, trim_decStr]
        rfl
    | otherC => rfl

theorem ckv30_edgeRec (e : REdge) (rest : List Str) :
    codeKValues 30 (edgeRec e ++ rest) = edgeCode30 e ++ codeKValues 30 rest := by
  obtain ⟨c, pF, pL⟩ := e
  cases c with
  | none => rfl
  | some rc =>
    cases rc with
    | lineC =>
      have h : codeKValues 30 (edgeRec ⟨some .lineC, pF, pL⟩ ++ rest) =
          trim (decStr pF.z) :: codeKValues 30 rest := rfl
      rw [h, trim_decStr]
      rfl
    | circleC cc r =>
      have h : codeKValues 30 (edgeRec ⟨some (.circleC cc r), pF, pL⟩ ++ rest) =
          trim (decStr cc.z) :: codeKValues 30 rest := rfl
      rw [h, trim_decStr]
      rfl
    | trimmedC basis a b =>
      cases basis with
      | none => rfl
      | some cr =>
        obtain ⟨cc, r⟩ := cr
        have h : codeKValues 30
            (edgeRec ⟨some (.trimmedC (some (cc, r)) a b), pF, pL⟩ ++ rest) =
            trim (decStr cc.z) :: codeKValues 30 rest := rfl
        rw [h, trim_decStr]
        rfl
    | otherC => rfl

theorem ckv10_edgeFold (edges : List REdge) (rest : List Str) :
    codeKValues 10 ((edges.foldr (fun e a => edgeRec e ++ a) []) ++ rest) =
      (edges.foldr (fun e a => edgeCode10 e ++ a) []) ++ codeKValues 10 rest := by
  induction edges with
  | nil => simp
  | cons e edges ih =>
    simp only [List.foldr_cons, List.append_assoc]
    rw [ckv10_edgeRec, ih]

theorem ckv20_edgeFold (edges : List REdge) (rest : List Str) :
    codeKValues 20 ((edges.foldr (fun e a => edgeRec e ++ a) []) ++ rest) =
      (edges.foldr (fun e a => edgeCode20 e ++ a) []) ++ codeKValues 20 rest := by
  induction edges with
  | nil => simp
  | cons e edges ih =>
    simp only [List.foldr_cons, List.append_assoc]
    rw [ckv20_edgeRec, ih]

theorem ckv30_edgeFold (edges : List REdge) (rest : List Str) :
    codeKValues 30 ((edges.foldr (fun e a => edgeRec e ++ a) []) ++ rest) =
      (edges.foldr (fun e a => edgeCode30 e ++ a) []) ++ codeKValues 30 rest := by
  induction edges with
  | nil => simp
  | cons e edges ih =>
    simp only [List.foldr_cons, List.append_assoc]
    rw [ckv30_edgeRec, ih]

theorem ckv20_header (rest : List Str) :
    codeKValues 20 (headerLines ++ rest) = codeKValues 20 rest := rfl

theorem ckv30_header (rest : List Str) :
    codeKValues 30 (headerLines ++ rest) = codeKValues 30 rest := rfl

theorem ckv20_lwHead (n : ℕ) (rest : List Str) :
    codeKValues 20 (lwHeadLines n ++ rest) = codeKValues 20 rest := rfl

theorem ckv30_lwHead (n : ℕ) (rest : List Str) :
    codeKValues 30 (lwHeadLines n ++ rest) = codeKValues 30 rest := rfl

theorem ckv20_footer : codeKValues 20 footerLines = [] := rfl

theorem ckv30_footer : codeKValues 30 footerLines = [] := rfl

theorem ckv20_vertex (p : WPnt) (rest : List Str) :
    codeKValues 20 ([" 10".data, decStr p.x, " 20".data, decStr p.y,
        " 30".data, decStr p.z] ++ rest) =
      trim (decStr p.y) :: codeKValues 20 rest := rfl

theorem ckv30_vertex (p : WPnt) (rest : List Str) :
    codeKValues 30 ([" 10".data, decStr p.x, " 20".data, decStr p.y,
        " 30".data, decStr p.z] ++ rest) =
      trim (decStr p.z) :: codeKValues 30 rest := rfl

theorem ckv20_vertexLines (pts : List WPnt) (rest : List Str) :
    codeKValues 20 (vertexLines pts ++ rest) =
      pts.map (fun p => trim (decStr p.y)) ++ codeKValues 20 rest := by
  induction pts with
  | nil => simp [vertexLines]
  | cons p pts ih =>
    have hv : vertexLines (p :: pts) =
        [" 10".data, decStr p.x, " 20".data, decStr p.y, " 30".data, decStr p.z] ++
          vertexLines pts := rfl
    rw [hv, List.append_assoc, ckv20_vertex, ih]
    simp

theorem ckv30_vertexLines (pts : List WPnt) (rest : List Str) :
    codeKValues 30 (vertexLines pts ++ rest) =
      pts.map (fun p => trim (decStr p.z)) ++ codeKValues 30 rest := by
  induction pts with
  | nil => simp [vertexLines]
  | cons p pts ih =>
    have hv : vertexLines (p :: pts) =
        [" 10".data, decStr p.x, " 20".data, decStr p.y, " 30".data, decStr p.z] ++
          vertexLines pts := rfl
    rw [hv, List.append_assoc, ckv30_vertex, ih]
    simp

theorem ckv10_wireS (edges : List REdge) (hne : wirePoints edges ≠ []) :
    codeKValues 10 (convertToDxfLines [.wireS edges]) =
      (edges.foldr (fun e a => edgeCode10 e ++ a) []) ++
        (wirePoints edges).map (fun p => decStr p.x) := by
  have hlines : convertToDxfLines [.wireS edges] =
      headerLines ++ (shapeLines (.wireS edges) ++ footerLines) := by
    simp [convertToDxfLines, List.append_assoc]
  rw [hlines, shapeLines_wireS edges hne]
  rw [ckv10_header]
  rw [List.append_assoc, List.append_assoc]
  rw [ckv10_edgeFold]
  rw [ckv10_lwHead, ckv10_vertexLines, ckv10_footer]
  simp only [List.append_nil]
  congr 1
  exact List.map_congr_left (fun p _ => by rw [trim_decStr])

theorem ckv20_wireS (edges : List REdge) (hne : wirePoints edges ≠ []) :
    codeKValues 20 (convertToDxfLines [.wireS edges]) =
      (edges.foldr (fun e a => edgeCode20 e ++ a) []) ++
        (wirePoints edges).map (fun p => decStr p.y) := by
  have hlines : convertToDxfLines [.wireS edges] =
      headerLines ++ (shapeLines (.wireS edges) ++ footerLines) := by
    simp [convertToDxfLines, List.append_assoc]
  rw [hlines, shapeLines_wireS edges hne]
  rw [ckv20_header]
  rw [List.append_assoc, List.append_assoc]
  rw [ckv20_edgeFold]
  rw [ckv20_lwHead, ckv20_vertexLines, ckv20_footer]
  simp only [List.append_nil]
  congr 1
  exact List.map_congr_left (fun p _ => by rw [trim_decStr])

theorem ckv30_wireS (edges : List REdge) (hne : wirePoints edges ≠ []) :
    codeKValues 30 (convertToDxfLines [.wireS edges]) =
      (edges.foldr (fun e a => edgeCode30 e ++ a) []) ++
        (wirePoints edges).map (fun p => decStr p.z) := by
  have hlines : convertToDxfLines [.wireS edges] =
      headerLines ++ (shapeLines (.wireS edges) ++ footerLines) := by
    simp [convertToDxfLines, List.append_assoc]
  rw [hlines, shapeLines_wireS edges hne]
  rw [ckv30_header]
  rw [List.append_assoc, List.append_assoc]
  rw [ckv30_edgeFold]
  rw [ckv30_lwHead, ckv30_vertexLines, ckv30_footer]
  simp only [List.append_nil]
  congr 1
  exact List.map_congr_left (fun p _ => by rw [trim_decStr])

set_option maxHeartbeats 1000000 in
/-- C9 (amended): for every input shape that is a wire with at least one edge carrying a
non-null curve, convertToDxf emits the individual curve records of its edges (the LINE
records are exactly those of its straight-line edges, the CIRCLE records exactly those of
its full-circle edges, the ARC records exactly those of its trimmed-circle edges, each
with its end points / center and radius / angles) plus exactly one LWPOLYLINE record
whose code 90 is the count of listed vertices, whose code 70 flag is the string 1 (the
closed flag, which stoi reads as 1 with bit 1 set, so the format and the code's own
reader treat the polyline as closed, not open), and which lists the start vertex of each
edge with a non-null curve in wire order: the code-10, code-20 and code-30 value streams
of the whole emitted file are the per-edge record coordinates followed by the x, y and z
coordinates of exactly those start vertices, so the final vertex of an open wire is
omitted rather than every traversed vertex being listed. -/
theorem c9_wire_polyline (edges : List REdge) (hne : wirePoints edges ≠ []) :
    ∃ es, parseDxfEntities (convertToDxf [.wireS edges]) = .ok es ∧
      (es.filter fun en => en.type = "LINE".data) = edges.filterMap lineRecOf ∧
      (es.filter fun en => en.type = "CIRCLE".data) = edges.filterMap circleRecOf ∧
      (es.filter fun en => en.type = "ARC".data) = edges.filterMap arcRecOf ∧
      (es.filter fun en => en.type = "LWPOLYLINE".data).map
          (fun en => (gcFind en.groupCodes 90, gcFind en.groupCodes 70)) =
        [(some (natDigits (wirePoints edges).length), some ['1'])] ∧
      (stoiParse ['1'] = .ok 1 ∧ Int.land 1 1 ≠ 0) ∧
      codeKValues 10 (convertToDxfLines [.wireS edges]) =
        (edges.foldr (fun e a => edgeCode10 e ++ a) []) ++
          (wirePoints edges).map (fun p => decStr p.x) ∧
      codeKValues 20 (convertToDxfLines [.wireS edges]) =
        (edges.foldr (fun e a => edgeCode20 e ++ a) []) ++
          (wirePoints edges).map (fun p => decStr p.y) ∧
      codeKValues 30 (convertToDxfLines [.wireS edges]) =
        (edges.foldr (fun e a => edgeCode30 e ++ a) []) ++
          (wirePoints edges).map (fun p => decStr p.z) := by
  refine ⟨headerEnts ++ [entSecC] ++ edges.filterMap edgeEnt ++
      [lwEntC (wirePoints edges).length ((wirePoints edges).getLastD originPnt)] ++
      [endsecEnt] ++ [eofEnt], ?_, ?_, ?_, ?_, ?_, ?_, ?_, ?_, ?_⟩
  · rw [parseDxf_convertToDxf [.wireS edges]
      (fun s hs => by
        simp only [List.mem_singleton] at hs
        subst hs
        exact wireS_lines_no_nl edges hne)]
    rw [convertToDxfLines_eq]
    simp only [List.foldr_cons, List.foldr_nil, List.append_nil]
    rw [parseLoop_header]
    rw [shapeLines_wireS edges hne]
    simp only [List.append_assoc]
    rw [parseLoop_edgeFold]
    rw [parseLoop_lwHead]
    rw [parseLoop_vertexNonempty _ hne _ _ _]
    rw [parseLoop_footer]
    rw [lwEntMid_close]
    rw [edgePassState_spec]
    rw [entSec_close]
    simp only [List.append_assoc]
  · simp only [List.filter_append]
    have h1 : headerEnts.filter (fun en => en.type = "LINE".data) = [] := by rfl
    have h2 : [entSecC].filter (fun en => en.type = "LINE".data) = [] := by rfl
    have h4 : [lwEntC (wirePoints edges).length
        ((wirePoints edges).getLastD originPnt)].filter
        (fun en => en.type = "LINE".data) = [] := by rfl
    have h5 : [endsecEnt].filter (fun en => en.type = "LINE".data) = [] := by rfl
    have h6 : [eofEnt].filter (fun en => en.type = "LINE".data) = [] := by rfl
    rw [h1, h2, filterMap_edgeEnt_line, h4, h5, h6]
    simp
  · simp only [List.filter_append]
    have h1 : headerEnts.filter (fun en => en.type = "CIRCLE".data) = [] := by rfl
    have h2 : [entSecC].filter (fun en => en.type = "CIRCLE".data) = [] := by rfl
    have h4 : [lwEntC (wirePoints edges).length
        ((wirePoints edges).getLastD originPnt)].filter
        (fun en => en.type = "CIRCLE".data) = [] := by rfl
    have h5 : [endsecEnt].filter (fun en => en.type = "CIRCLE".data) = [] := by rfl
    have h6 : [eofEnt].filter (fun en => en.type = "CIRCLE".data) = [] := by rfl
    rw [h1, h2, filterMap_edgeEnt_circle, h4, h5, h6]
    simp
  · simp only [List.filter_append]
    have h1 : headerEnts.filter (fun en => en.type = "ARC".data) = [] := by rfl
    have h2 : [entSecC].filter (fun en => en.type = "ARC".data) = [] := by rfl
    have h4 : [lwEntC (wirePoints edges).length
        ((wirePoints edges).getLastD originPnt)].filter
        (fun en => en.type = "ARC".data) = [] := by rfl
    have h5 : [endsecEnt].filter (fun en => en.type = "ARC".data) = [] := by rfl
    have h6 : [eofEnt].filter (fun en => en.type = "ARC".data) = [] := by rfl
    rw [h1, h2, filterMap_edgeEnt_arc, h4, h5, h6]
    simp
  · simp only [List.filter_append]
    have h1 : headerEnts.filter (fun en => en.type = "LWPOLYLINE".data) = [] := by rfl
    have h2 : [entSecC].filter (fun en => en.type = "LWPOLYLINE".data) = [] := by rfl
    have h4 : [lwEntC (wirePoints edges).length
        ((wirePoints edges).getLastD originPnt)].filter
        (fun en => en.type = "LWPOLYLINE".data) =
        [lwEntC (wirePoints edges).length ((wirePoints edges).getLastD originPnt)] := by rfl
    have h5 : [endsecEnt].filter (fun en => en.type = "LWPOLYLINE".data) = [] := by rfl
    have h6 : [eofEnt].filter (fun en => en.type = "LWPOLYLINE".data) = [] := by rfl
    rw [h1, h2, filterMap_edgeEnt_lw, h4, h5, h6]
    simp [gcFind_lwEntC_90, gcFind_lwEntC_70]
  · exact ⟨by decide, by decide⟩
  · exact ckv10_wireS edges hne
  · exact ckv20_wireS edges hne
  · exact ckv30_wireS edges hne

/-- C9 witness: the amended statement instantiated at a concrete six-edge wire holding a
straight-line edge, a null-curve edge, a full-circle edge, a trimmed-circle edge, an
other-curve edge and a basis-less trimmed edge. -/
theorem c9_wire_polyline_witness :
    ∃ es, parseDxfEntities (convertToDxf [.wireS c9Edges]) = .ok es ∧
      (es.filter fun en => en.type = "LINE".data) = c9Edges.filterMap lineRecOf ∧
      (es.filter fun en => en.type = "CIRCLE".data) = c9Edges.filterMap circleRecOf ∧
      (es.filter fun en => en.type = "ARC".data) = c9Edges.filterMap arcRecOf ∧
      (es.filter fun en => en.type = "LWPOLYLINE".data).map
          (fun en => (gcFind en.groupCodes 90, gcFind en.groupCodes 70)) =
        [(some (natDigits (wirePoints c9Edges).length), some ['1'])] ∧
      (stoiParse ['1'] = .ok 1 ∧ Int.land 1 1 ≠ 0) ∧
      codeKValues 10 (convertToDxfLines [.wireS c9Edges]) =
        (c9Edges.foldr (fun e a => edgeCode10 e ++ a) []) ++
          (wirePoints c9Edges).map (fun p => decStr p.x) ∧
      codeKValues 20 (convertToDxfLines [.wireS c9Edges]) =
        (c9Edges.foldr (fun e a => edgeCode20 e ++ a) []) ++
          (wirePoints c9Edges).map (fun p => decStr p.y) ∧
      codeKValues 30 (convertToDxfLines [.wireS c9Edges]) =
        (c9Edges.foldr (fun e a => edgeCode30 e ++ a) []) ++
          (wirePoints c9Edges).map (fun p => decStr p.z) :=
  c9_wire_polyline c9Edges (by decide)

end Conv
